import Mathlib

/-!
# Verification of the scope-hoisting pass (`src/native-packages/js-swc/src/hoist.rs`)

A shallow embedding of the two cooperating passes of `hoist.rs` — the read-only
`Collect` visitor and the rewriting `Hoist` folder — together with the helper
matchers (`match_require`, `match_import`, `is_marked`, `has_binding_identifier`)
and the fresh-name construction.

Modelling conventions:

* swc `Mark`s are naturals, with `0` playing the role of `Mark::root()`; a
  `SyntaxContext` is the list of marks applied to a span, most recent first
  (`[]` is `SyntaxContext::empty()`).
* Source spans carry no position information here: `SourceLocation` values
  stored in the result tables are omitted (no claim constrains them), and of a
  span only its `SyntaxContext` is kept, attached to each identifier.
* `HashMap`/`HashSet` fields are modeled as association lists / lists without
  duplicates.  `insert` replaces an existing binding, `entry().or_insert`
  keeps it.  The iteration order of the one set that is iterated into the
  output module (`export_decls`, a `std::collections::HashSet` in the source)
  is exposed as an explicit `ord` parameter of `fold_module`; `hoist` uses
  insertion order.
* The AST covers the constructors actually examined by the two passes on the
  code paths the claims are about; function/class/arrow bodies, `this`
  expressions, array patterns and a few other node kinds are not modeled, and
  for the nodes kept, the traversal mirrors the swc `Visit`/`Fold` dispatch
  (custom hooks exactly where `hoist.rs` implements them, default
  children-traversal everywhere else).
-/

namespace Hoisting

/-- swc `Mark`: a lexical mark.  `0` plays the role of `Mark::root()`. -/
abbrev Mark := Nat

/-- swc `SyntaxContext`: the marks applied to a span, most recently applied
first.  `[]` is `SyntaxContext::empty()`, and `apply_mark m` conses `m`. -/
abbrev Ctxt := List Mark

/-- `IdentId` (hoist.rs line 12): the pair (symbol name, syntax context). -/
abbrev IdentId := String × Ctxt

/-- An identifier node: its symbol and the syntax context of its span. -/
structure Ident where
  sym : String
  ctxt : Ctxt
deriving DecidableEq, Repr

/-- The `id!` macro (hoist.rs lines 13-17): the `IdentId` of an identifier. -/
def Ident.toId (i : Ident) : IdentId := (i.sym, i.ctxt)

/-- `is_marked` (hoist.rs lines 1320-1333): repeatedly `remove_mark` on the
span's context; `false` once the root mark comes off, `true` if the
requested mark comes off first. -/
def is_marked : Ctxt → Mark → Bool
  | [], _ => false
  | m :: rest, mark =>
    if m = 0 then false
    else if m = mark then true
    else is_marked rest mark

/-- Modelled from the spec: the `hash!` macro (hoist.rs lines 19-27) feeds the
string to `std::collections::hash_map::DefaultHasher`, whose algorithm lives
outside src/.  Per the spec (§6) it is "a 64-bit, deterministic,
stable-across-runs digest" whose "specific algorithm is an implementation
detail"; it is modeled as a fixed 64-bit digest of the string's characters. -/
def hash64 (s : String) : Nat :=
  s.data.foldl (fun h c => (h * 65599 + c.toNat) % (2 ^ 64)) 0

/-- The `{:x}` formatting of a `u64`: lowercase hexadecimal, no leading zeros. -/
def toHex (n : Nat) : String := String.mk (Nat.toDigits 16 n)

/-- `$M$import$H(s)` — whole-namespace static import name. -/
def importName (M s : String) : String :=
  "$" ++ M ++ "$import$" ++ toHex (hash64 s)

/-- `$M$import$H(s)$H(l)` — per-symbol static import name. -/
def importName2 (M s l : String) : String :=
  "$" ++ M ++ "$import$" ++ toHex (hash64 s) ++ "$" ++ toHex (hash64 l)

/-- `$M$importAsync$H(s)` — whole-namespace dynamic import name. -/
def asyncName (M s : String) : String :=
  "$" ++ M ++ "$importAsync$" ++ toHex (hash64 s)

/-- `$M$importAsync$H(s)$H(l)` — per-symbol dynamic import name. -/
def asyncName2 (M s l : String) : String :=
  "$" ++ M ++ "$importAsync$" ++ toHex (hash64 s) ++ "$" ++ toHex (hash64 l)

/-- `$M$export$e` — export name (literal, not hashed). -/
def exportName (M e : String) : String := "$" ++ M ++ "$export$" ++ e

/-- `$M$exports` — the whole-module CJS exports object. -/
def exportsName (M : String) : String := "$" ++ M ++ "$exports"

/-- `$M$var$v` — renamed top-level local. -/
def varName (M v : String) : String := "$" ++ M ++ "$var$" ++ v

section AList

variable {α : Type} {β : Type} [DecidableEq α]

/-- Association-list lookup (`HashMap::get`). -/
def alookup : List (α × β) → α → Option β
  | [], _ => none
  | (k, v) :: rest, key => if k = key then some v else alookup rest key

/-- Remove a key (helper for overwriting insertion). -/
def aerase : List (α × β) → α → List (α × β)
  | [], _ => []
  | (k, v) :: rest, key => if k = key then aerase rest key else (k, v) :: aerase rest key

/-- `HashMap::insert`: overwrite any existing binding for the key. -/
def ainsert (key : α) (val : β) (m : List (α × β)) : List (α × β) :=
  (key, val) :: aerase m key

/-- `HashMap::entry(key).or_insert(val)`: insert only when absent. -/
def entryOrInsert (key : α) (val : β) (m : List (α × β)) : List (α × β) :=
  match alookup m key with
  | some _ => m
  | none => (key, val) :: m

/-- `HashSet::insert` for sets whose iteration order never matters. -/
def sinsert (a : α) (s : List α) : List α := if a ∈ s then s else a :: s

/-- `HashSet::insert` for `export_decls`, keeping insertion order so that the
`ord` parameter of `fold_module` ranges over permutations of the set. -/
def einsert (a : α) (s : List α) : List α := if a ∈ s then s else s ++ [a]

end AList

/-! ## The AST

The subset of the swc AST that the claims exercise.  Constructor shapes mirror
the swc node shapes matched by `hoist.rs`: `ExprOrSuper` is `Callee`,
`PatOrExpr` is kept, `MemberExpr`/`CallExpr`/`AssignExpr` are their own node
types as in swc, member expressions keep their `computed` flag, and call
arguments drop the never-inspected spread flag. -/

inductive Lit where
  | str (value : String)
  | num (n : Int)
deriving DecidableEq, Repr

inductive UnaryOp where
  | typeofOp
  | bang
deriving DecidableEq, Repr

inductive VarKind where
  | varK
  | letK
  | constK
deriving DecidableEq, Repr

mutual

inductive Expr where
  | ident (i : Ident)
  | lit (l : Lit)
  | call (c : CallExpr)
  | member (m : MemberExpr)
  | unary (op : UnaryOp) (arg : Expr)
  | awaitE (arg : Expr)
  | seq (exprs : List Expr)
  | assign (a : AssignExpr)
deriving Repr

inductive CallExpr where
  | mk (callee : Callee) (args : List Expr)
deriving Repr

inductive MemberExpr where
  | mk (obj : Callee) (prop : Expr) (computed : Bool)
deriving Repr

inductive AssignExpr where
  | mk (left : PatOrExpr) (right : Expr)
deriving Repr

inductive Callee where
  | cexpr (e : Expr)
  | csuper
deriving Repr

inductive PatOrExpr where
  | pat (p : Pat)
  | pexpr (e : Expr)
deriving Repr

inductive Pat where
  | pid (i : Ident)
  | pobject (props : List ObjectPatProp)
  | passign (left : Pat) (right : Expr)
  | pexprP (e : Expr)
deriving Repr

inductive ObjectPatProp where
  | kv (key : PropName) (value : Pat)
  | assignP (key : Ident) (value : Option Expr)
  | restP (arg : Pat)
deriving Repr

inductive PropName where
  | pnIdent (i : Ident)
  | pnStr (s : String)
  | pnComputed (e : Expr)
deriving Repr

end

structure VarDeclarator where
  name : Pat
  init : Option Expr
deriving Repr

structure VarDecl where
  kind : VarKind
  decls : List VarDeclarator
deriving Repr

inductive Stmt where
  | sdecl (var : VarDecl)
  | sexpr (e : Expr)
  | sreturn (arg : Option Expr)
deriving Repr

inductive ImportSpecifier where
  | named (localId : Ident) (imported : Option Ident)
  | defaultS (localId : Ident)
  | namespaceS (localId : Ident)
deriving Repr

inductive ExportSpecifier where
  | named (orig : Ident) (exported : Option Ident)
  | defaultE (exported : Ident)
  | namespaceE (name : Ident)
deriving Repr

inductive ModuleDecl where
  | importD (specifiers : List ImportSpecifier) (src : String)
  | exportNamed (specifiers : List ExportSpecifier) (src : Option String)
  | exportAll (src : String)
  | exportDefaultExpr (e : Expr)
  | exportDecl (var : VarDecl)
deriving Repr

inductive ModuleItem where
  | mdecl (d : ModuleDecl)
  | mstmt (s : Stmt)
deriving Repr

structure Module where
  body : List ModuleItem
deriving Repr

/-! ## Matchers -/

/-- `match_require` (hoist.rs lines 1335-1362): a call whose callee is an
identifier `require`, not in `decls` and not carrying `ignore_mark`, and whose
first argument is a string literal; yields that literal. -/
def match_require (node : Expr) (decls : List IdentId) (ignore_mark : Mark) :
    Option String :=
  match node with
  | .call (.mk callee args) =>
    match callee with
    | .cexpr e =>
      match e with
      | .ident ident =>
        if ident.sym = "require" ∧ ident.toId ∉ decls ∧
            is_marked ident.ctxt ignore_mark = false then
          match args.head? with
          | some arg =>
            match arg with
            | .lit l => match l with | .str s => some s | _ => none
            | _ => none
          | none => none
        else none
      | _ => none
    | _ => none
  | _ => none

/-- `match_import` (hoist.rs lines 1364-1391): like `match_require` for the
pseudo-identifier `import` — no `decls` test, only the ignore mark. -/
def match_import (node : Expr) (ignore_mark : Mark) : Option String :=
  match node with
  | .call (.mk callee args) =>
    match callee with
    | .cexpr e =>
      match e with
      | .ident ident =>
        if ident.sym = "import" ∧ is_marked ident.ctxt ignore_mark = false then
          match args.head? with
          | some arg =>
            match arg with
            | .lit l => match l with | .str s => some s | _ => none
            | _ => none
          | none => none
        else none
      | _ => none
    | _ => none
  | _ => none

/-- Modelled from the spec: `match_member_expr(member, vec!["module",
"exports"], decls)` comes from `crate::utils` (utils.rs is not under src/).
Per the spec it recognises "a static member expression of the form
`module.exports` (exact)" with a free root: the object is an identifier
`module` not in `decls`, and the property is the identifier `exports`
(non-computed) or the string literal `"exports"`. -/
def matchModuleExports (m : MemberExpr) (decls : List IdentId) : Bool :=
  match m with
  | .mk obj prop computed =>
    (match obj with
     | .cexpr (.ident i) => decide (i.sym = "module" ∧ i.toId ∉ decls)
     | _ => false)
    && (match prop with
        | .ident p => decide (p.sym = "exports") && !computed
        | .lit (.str s) => decide (s = "exports")
        | _ => false)

mutual

/-- `has_binding_identifier` (hoist.rs lines 1393-1434) on the pattern forms
modeled here (identifier and object patterns; array patterns are not part of
this embedding; `Pat::Assign`/`Pat::Expr` fall into the Rust `_ => {}`). -/
def has_binding_identifier (node : Pat) (sym : String) (decls : List IdentId) :
    Bool :=
  match node with
  | .pid ident => decide (ident.sym = sym ∧ ident.toId ∉ decls)
  | .pobject props => hbiProps props sym decls
  | _ => false

/-- Object-pattern part of `has_binding_identifier`. -/
def hbiProps (props : List ObjectPatProp) (sym : String)
    (decls : List IdentId) : Bool :=
  match props with
  | [] => false
  | p :: rest =>
    (match p with
     | .kv _ value => has_binding_identifier value sym decls
     | .assignP key _ => decide (key.sym = sym ∧ key.toId ∉ decls)
     | .restP arg => has_binding_identifier arg sym decls)
    || hbiProps rest sym decls

end

/-! ## Collect (analysis pass, hoist.rs lines 789-1318)

The read-only visitor, written in state-passing style: each `visit_*` method
of the Rust `Visit` impl becomes a function `Collect → node → Collect`.
Where `hoist.rs` has no custom method, the functions mirror swc's default
children traversal (child expressions dispatch back through the custom
hooks, exactly as `visit_children_with` does). -/

structure Collect where
  decls : List IdentId
  ignore_mark : Mark
  static_cjs_exports : Bool
  has_cjs_exports : Bool
  is_esm : Bool
  should_wrap : Bool
  /-- local binding ↦ (source, imported name, is_async); `SourceLocation` omitted. -/
  imports : List (IdentId × String × String × Bool)
  exports : List (IdentId × String)
  non_static_access : List IdentId
  non_static_requires : List String
  wrapped_requires : List String
  in_module_this : Bool
  in_top_level : Bool
  in_export_decl : Bool
  in_function : Bool
deriving Repr

/-- `Collect::new` (hoist.rs lines 809-828). -/
def Collect.new (decls : List IdentId) (ignore_mark : Mark) : Collect :=
  { decls, ignore_mark,
    static_cjs_exports := true, has_cjs_exports := false,
    is_esm := false, should_wrap := false,
    imports := [], exports := [], non_static_access := [],
    non_static_requires := [], wrapped_requires := [],
    in_module_this := true, in_top_level := true,
    in_export_decl := false, in_function := false }

/-- `Collect::match_require` (hoist.rs lines 1254-1256). -/
def Collect.matchRequire (st : Collect) (node : Expr) : Option String :=
  match_require node st.decls st.ignore_mark

/-- The per-property body of `add_pat_imports`'s object-pattern loop
(hoist.rs lines 1272-1311). -/
def addPatImportsProp (src : String) (is_import : Bool) (st : Collect)
    (prop : ObjectPatProp) : Collect :=
  match prop with
  | .kv key value =>
    match key with
    | .pnIdent i =>
      (match value with
       | .pid ident =>
         { st with imports := ainsert ident.toId (src, i.sym, is_import) st.imports }
       | _ => { st with non_static_requires := sinsert src st.non_static_requires })
    | .pnStr s =>
      (match value with
       | .pid ident =>
         { st with imports := ainsert ident.toId (src, s, is_import) st.imports }
       | _ => { st with non_static_requires := sinsert src st.non_static_requires })
    | _ =>
      -- non-static key, e.g. computed property
      { st with non_static_requires := sinsert src st.non_static_requires }
  | .assignP key _ =>
    { st with imports := ainsert key.toId (src, key.sym, is_import) st.imports }
  | .restP _ =>
    { st with non_static_requires := sinsert src st.non_static_requires }

/-- `Collect::add_pat_imports` (hoist.rs lines 1258-1317). -/
def Collect.add_pat_imports (st : Collect) (node : Pat) (src : String)
    (is_import : Bool) : Collect :=
  let st :=
    if st.in_top_level = false then
      let st := { st with wrapped_requires := sinsert src st.wrapped_requires }
      if is_import = false then
        { st with non_static_requires := sinsert src st.non_static_requires }
      else st
    else st
  match node with
  | .pid ident =>
    { st with imports := ainsert ident.toId (src, "*", is_import) st.imports }
  | .pobject props => props.foldl (addPatImportsProp src is_import) st
  | _ => { st with non_static_requires := sinsert src st.non_static_requires }

mutual

/-- `visit_expr` (hoist.rs lines 1063-1087): the identifier case is custom;
everything else goes through children, dispatching to the custom hooks. -/
def visit_expr (st : Collect) (node : Expr) : Collect :=
  match node with
  | .ident ident =>
    let is_module := ident.sym = "module"
    let is_exports := ident.sym = "exports"
    let st :=
      if (is_module ∨ is_exports) ∧ ident.toId ∉ st.decls then
        let st := { st with has_cjs_exports := true, static_cjs_exports := false }
        if is_module then { st with should_wrap := true } else st
      else st
    if ident.sym ≠ "import" then
      { st with non_static_access := sinsert ident.toId st.non_static_access }
    else st
  | .lit _ => st
  | .call c => visit_call_expr st c
  | .member m => visit_member_expr st m
  | .unary _ arg => visit_expr st arg
  | .awaitE arg => visit_expr st arg
  | .seq exprs => visitExprList st exprs
  | .assign a => visit_assign_expr st a

def visitExprList (st : Collect) (es : List Expr) : Collect :=
  match es with
  | [] => st
  | e :: rest => visitExprList (visit_expr st e) rest

def visitCallee (st : Collect) (c : Callee) : Collect :=
  match c with
  | .cexpr e => visit_expr st e
  | .csuper => st

/-- `visit_member_expr` (hoist.rs lines 996-1061).  The default
children-traversal (object then property) is written inline. -/
def visit_member_expr (st : Collect) (node : MemberExpr) : Collect :=
  match node with
  | .mk obj prop computed =>
    if matchModuleExports (.mk obj prop computed) st.decls then
      { st with static_cjs_exports := false, has_cjs_exports := true }
    else
      let is_static : Bool :=
        match prop with
        | .ident _ => !computed
        | .lit l => (match l with | .str _ => true | _ => false)
        | _ => false
      match obj with
      | .cexpr e =>
        match e with
        | .member m2 =>
          -- the `return` is unconditional: nested member objects are not traversed
          if matchModuleExports m2 st.decls then
            let st := { st with has_cjs_exports := true }
            if is_static = false then { st with static_cjs_exports := false } else st
          else st
        | .ident ident =>
          let st :=
            if ident.sym = "exports" ∧ ident.toId ∉ st.decls then
              let st := { st with has_cjs_exports := true }
              if is_static = false then { st with static_cjs_exports := false } else st
            else st
          if is_static = false ∧ ident.sym ≠ "import" then
            { st with non_static_access := sinsert ident.toId st.non_static_access }
          else st
        | _ =>
          -- default children traversal: the object expression, then the property
          let st := visit_expr st e
          visit_expr st prop
      | .csuper =>
        -- default children traversal; a `Super` object has no identifier children
        visit_expr st prop

/-- The shape test of the `import('x').then(cb)` branch of `visit_call_expr`
(hoist.rs lines 1199-1215): for a callee expression, yields the import source
when it is a member expression whose object is a dynamic `import(s)` call and
whose property is statically `then`. -/
def thenImportSource (e : Expr) (ignore_mark : Mark) : Option String :=
  match e with
  | .member (.mk mobj mprop mcomputed) =>
    (match mobj with
     | .cexpr objE =>
       (match match_import objE ignore_mark with
        | some source =>
          let is_then : Bool :=
            match mprop with
            | .ident i => !mcomputed && decide (i.sym = "then")
            | .lit l => (match l with | .str s => decide (s = "then") | _ => false)
            | _ => false
          if is_then then some source else none
        | none => none)
     | _ => none)
  | _ => none

/-- The `require(s)` insertion at the top of `visit_call_expr`
(hoist.rs lines 1180-1184): a call matching `require(s)` adds `s` to
`wrapped_requires`. -/
def vceRequire (st : Collect) (node : CallExpr) : Collect :=
  match match_require (.call node) st.decls st.ignore_mark with
  | some source => { st with wrapped_requires := sinsert source st.wrapped_requires }
  | none => st

/-- The dynamic-`import(s)` insertion of `visit_call_expr`
(hoist.rs lines 1185-1192). -/
def vceImport (st : Collect) (node : CallExpr) : Collect :=
  match match_import (.call node) st.ignore_mark with
  | some source =>
    { st with non_static_requires := sinsert source st.non_static_requires,
              wrapped_requires := sinsert source st.wrapped_requires }
  | none => st

/-- The free-`eval`-callee check of `visit_call_expr`
(hoist.rs lines 1193-1198): a free `eval` callee forces wrapping. -/
def vceEval (st : Collect) (e : Expr) : Collect :=
  match e with
  | .ident ident =>
    if ident.sym = "eval" ∧ ident.toId ∉ st.decls then
      { st with should_wrap := true }
    else st
  | _ => st

/-- `visit_call_expr` (hoist.rs lines 1179-1250).  The default
children-traversal (callee then arguments) is written inline at the
fall-through points. -/
def visit_call_expr (st : Collect) (node : CallExpr) : Collect :=
  match node with
  | .mk callee args =>
    let st := vceRequire st (.mk callee args)
    let st := vceImport st (.mk callee args)
    match callee with
    | .cexpr e =>
      let st := vceEval st e
      -- import('foo').then(cb) (hoist.rs lines 1199-1241)
      match thenImportSource e st.ignore_mark with
      | some source =>
        (match args with
         | argExpr :: _ =>
           -- the callback parameter only exists for function/arrow
           -- expressions, which are not part of this embedding, so the
           -- `param` of the source is always `None` here
           let st :=
             { st with non_static_requires := sinsert source st.non_static_requires,
                       wrapped_requires := sinsert source st.wrapped_requires }
           visit_expr st argExpr
         | [] =>
           -- default children traversal; the argument list is empty
           visit_expr st e)
      | none =>
        let st := visit_expr st e
        visitExprList st args
    | .csuper => visitExprList st args

/-- `visit_assign_expr` (hoist.rs lines 1096-1115): children first, then the
`exports`-rebinding check on a pattern LHS. -/
def visit_assign_expr (st : Collect) (node : AssignExpr) : Collect :=
  match node with
  | .mk left right =>
    let st := visitPatOrExpr st left
    let st := visit_expr st right
    match left with
    | .pat pat =>
      if has_binding_identifier pat "exports" st.decls then
        { st with static_cjs_exports := false, has_cjs_exports := true,
                  should_wrap := true }
      else st
    | .pexpr _ => st

def visitPatOrExpr (st : Collect) (p : PatOrExpr) : Collect :=
  match p with
  | .pat pat => visitPat st pat
  | .pexpr e => visit_expr st e

/-- Default pattern traversal, with the `visit_binding_ident`
(hoist.rs lines 984-988) and `visit_assign_pat_prop` (lines 990-994) hooks;
neither hook visits its children. -/
def visitPat (st : Collect) (p : Pat) : Collect :=
  match p with
  | .pid ident =>
    if st.in_export_decl then
      { st with exports := ainsert ident.toId ident.sym st.exports }
    else st
  | .pobject props => visitPatProps st props
  | .passign left right =>
    let st := visitPat st left
    visit_expr st right
  | .pexprP e => visit_expr st e

def visitPatProps (st : Collect) (props : List ObjectPatProp) : Collect :=
  match props with
  | [] => st
  | p :: rest => visitPatProps (visitObjectPatProp st p) rest

def visitObjectPatProp (st : Collect) (p : ObjectPatProp) : Collect :=
  match p with
  | .kv key value =>
    let st := visitPropName st key
    visitPat st value
  | .assignP key _value =>
    if st.in_export_decl then
      { st with exports := ainsert key.toId key.sym st.exports }
    else st
  | .restP arg => visitPat st arg

def visitPropName (st : Collect) (p : PropName) : Collect :=
  match p with
  | .pnComputed e => visit_expr st e
  | _ => st

end

/-- Default children traversal of a `VarDeclarator`: its pattern, then its
initializer. -/
def visitVarDeclChildren (st : Collect) (node : VarDeclarator) : Collect :=
  let st := visitPat st node.name
  match node.init with
  | some e => visit_expr st e
  | none => st

/-- `visit_var_declarator` (hoist.rs lines 1117-1177). -/
def visit_var_declarator (st : Collect) (node : VarDeclarator) : Collect :=
  match node.init with
  | some init =>
    (match st.matchRequire init with
     | some source => st.add_pat_imports node.name source false
     | none =>
       match init with
       | .member (.mk obj prop computed) =>
         (match obj with
          | .cexpr objE =>
            (match st.matchRequire objE with
             | some source =>
               -- const yx = require('y').x; -> const {x: yx} = require('y');
               let key : PropName :=
                 match prop with
                 | .ident i => if !computed then .pnIdent i else .pnComputed objE
                 | .lit l => (match l with
                              | .str s => .pnStr s
                              | _ => .pnComputed objE)
                 | _ => .pnComputed objE
               st.add_pat_imports (.pobject [.kv key node.name]) source false
             | none => visitVarDeclChildren st node)
          | _ => visitVarDeclChildren st node)
       | .awaitE arg =>
         (match match_import arg st.ignore_mark with
          | some source => st.add_pat_imports node.name source true
          | none => visitVarDeclChildren st node)
       | _ => visitVarDeclChildren st node)
  | none => visitVarDeclChildren st node

def visitVarDeclList (st : Collect) (decls : List VarDeclarator) : Collect :=
  decls.foldl visit_var_declarator st

/-- Default statement traversal with the `visit_return_stmt` hook
(hoist.rs lines 976-982). -/
def visitStmt (st : Collect) (node : Stmt) : Collect :=
  match node with
  | .sdecl var => visitVarDeclList st var.decls
  | .sexpr e => visit_expr st e
  | .sreturn arg =>
    let st := if st.in_function = false then { st with should_wrap := true } else st
    match arg with
    | some e => visit_expr st e
    | none => st

/-- `visit_import_decl` (hoist.rs lines 889-907). -/
def visit_import_decl (st : Collect) (specifiers : List ImportSpecifier)
    (src : String) : Collect :=
  specifiers.foldl (fun st spec =>
    match spec with
    | .named localId imported =>
      let importedName := match imported with | some i => i.sym | none => localId.sym
      { st with imports := ainsert localId.toId (src, importedName, false) st.imports }
    | .defaultS localId =>
      { st with imports := ainsert localId.toId (src, "default", false) st.imports }
    | .namespaceS localId =>
      { st with imports := ainsert localId.toId (src, "*", false) st.imports }) st

/-- `visit_named_export` (hoist.rs lines 909-931). -/
def visit_named_export (st : Collect) (specifiers : List ExportSpecifier)
    (src : Option String) : Collect :=
  if src.isSome then st
  else
    specifiers.foldl (fun st spec =>
      match spec with
      | .named orig exported =>
        let exportedName := match exported with | some e => e.sym | none => orig.sym
        { st with exports := entryOrInsert orig.toId exportedName st.exports }
      | .defaultE exported =>
        { st with exports := entryOrInsert exported.toId "default" st.exports }
      | .namespaceE name =>
        { st with exports := entryOrInsert name.toId "*" st.exports }) st

/-- `visit_export_decl` (hoist.rs lines 933-954) for the `Decl::Var` case:
every pattern is visited with `in_export_decl` set, then the initializer,
and then the node's children are visited again (the trailing
`visit_children_with` of the source). -/
def visit_export_decl (st : Collect) (var : VarDecl) : Collect :=
  let st := var.decls.foldl (fun st d =>
    let st := visitPat { st with in_export_decl := true } d.name
    let st := { st with in_export_decl := false }
    match d.init with
    | some e => visit_expr st e
    | none => st) st
  visitVarDeclList st var.decls

/-- Children dispatch for the module declarations modeled here. -/
def visitModuleDeclChildren (st : Collect) (d : ModuleDecl) : Collect :=
  match d with
  | .importD specifiers src => visit_import_decl st specifiers src
  | .exportNamed specifiers src => visit_named_export st specifiers src
  | .exportAll _ => st
  | .exportDefaultExpr e => visit_expr st e
  | .exportDecl var => visit_export_decl st var

/-- `visit_module_item` (hoist.rs lines 855-887): a module declaration marks
the module as ESM; a top-level `var` declaration and a top-level expression
statement that is exactly a `require(s)` call keep `in_top_level`; everything
else is visited with `in_top_level` cleared. -/
def visit_module_item (st : Collect) (node : ModuleItem) : Collect :=
  match node with
  | .mdecl d =>
    let st := { st with is_esm := true }
    let st := { st with in_top_level := false }
    let st := visitModuleDeclChildren st d
    { st with in_top_level := true }
  | .mstmt stmt =>
    match stmt with
    | .sdecl var => visitVarDeclList st var.decls
    | .sexpr e =>
      match st.matchRequire e with
      | some _ =>
        -- Top-level require(). Do not traverse further so it is not marked as wrapped.
        st
      | none =>
        let st := { st with in_top_level := false }
        let st := visitStmt st stmt
        { st with in_top_level := true }
    | _ =>
      let st := { st with in_top_level := false }
      let st := visitStmt st stmt
      { st with in_top_level := true }

/-- `visit_module` (hoist.rs lines 832-838). -/
def visit_module (st : Collect) (node : Module) : Collect :=
  let st := { st with in_module_this := true, in_top_level := true,
                      in_function := false }
  let st := node.body.foldl visit_module_item st
  { st with in_module_this := false }

/-- Run the Collect pass as `hoist()` does (hoist.rs lines 30-31). -/
def collectModule (m : Module) (decls : List IdentId) (ignore_mark : Mark) :
    Collect :=
  visit_module (Collect.new decls ignore_mark) m

/-! ## Hoist (rewrite pass, hoist.rs lines 38-775)

The folder, in state-passing style: each `fold_*` method becomes a function
`Hoist → node → node × Hoist`.  The `module_id`, the borrowed `Collect`
result and `global_ctxt` are carried as read-only fields of the state, as in
the Rust struct. -/

/-- `HoistResult` (hoist.rs lines 52-63); `SourceLocation` components of the
tables are omitted. -/
structure HoistResult where
  imported_symbols : List (String × String × String)
  exported_symbols : List (String × String)
  re_exports : List (String × String × String)
  self_references : List String
  wrapped_requires : List String
  dynamic_imports : List (String × String)
  static_cjs_exports : Bool
  has_cjs_exports : Bool
  should_wrap : Bool
deriving Repr

/-- The `Hoist` struct (hoist.rs lines 38-50). -/
structure Hoist where
  module_id : String
  collect : Collect
  global_ctxt : Ctxt
  requires_in_stmt : List ModuleItem
  /-- A `HashSet<JsWord>` in the source; kept in insertion order here, with the
  iteration order of the final loop of `fold_module` exposed as a parameter. -/
  export_decls : List String
  /-- fresh name ↦ (source, local); `SourceLocation` omitted. -/
  imported_symbols : List (String × String × String)
  /-- exported name ↦ fresh name; `SourceLocation` omitted. -/
  exported_symbols : List (String × String)
  re_exports : List (String × String × String)
  self_references : List String
  dynamic_imports : List (String × String)
  in_function_scope : Bool
deriving Repr

/-- `Hoist::new` (hoist.rs lines 66-80); `global_ctxt` is
`SyntaxContext::empty().apply_mark(global_mark)`. -/
def Hoist.new (module_id : String) (collect : Collect) (global_mark : Mark) :
    Hoist :=
  { module_id, collect, global_ctxt := [global_mark],
    requires_in_stmt := [], export_decls := [],
    imported_symbols := [], exported_symbols := [], re_exports := [],
    self_references := [], dynamic_imports := [], in_function_scope := false }

/-- `Hoist::get_result` (hoist.rs lines 82-94). -/
def Hoist.get_result (st : Hoist) : HoistResult :=
  { imported_symbols := st.imported_symbols,
    exported_symbols := st.exported_symbols,
    re_exports := st.re_exports,
    self_references := st.self_references,
    dynamic_imports := st.dynamic_imports,
    wrapped_requires := st.collect.wrapped_requires,
    static_cjs_exports := st.collect.static_cjs_exports,
    has_cjs_exports := st.collect.has_cjs_exports,
    should_wrap := st.collect.should_wrap }

/-- The synthetic bare import `import "M:src";` (specifiers empty, dummy
span, synthesized unescaped string). -/
def synthImport (module_id source : String) : ModuleItem :=
  .mdecl (.importD [] (module_id ++ ":" ++ source))

/-- `Hoist::add_require` (hoist.rs lines 742-750). -/
def Hoist.add_require (st : Hoist) (source : String) : Hoist :=
  { st with requires_in_stmt := st.requires_in_stmt ++ [synthImport st.module_id source] }

/-- `Hoist::get_import_ident` (hoist.rs lines 752-760): computes the fresh
name, records it in `imported_symbols`, and returns an identifier carrying
the span it was given (its syntax context is *not* reset). -/
def Hoist.get_import_ident (st : Hoist) (span_ctxt : Ctxt)
    (source localName : String) : Ident × Hoist :=
  let new_name :=
    if localName = "*" then importName st.module_id source
    else importName2 st.module_id source localName
  (⟨new_name, span_ctxt⟩,
   { st with imported_symbols := ainsert new_name (source, localName) st.imported_symbols })

/-- `Hoist::get_export_ident` (hoist.rs lines 762-774): computes the fresh
name, `entry(..).or_insert`s it into `exported_symbols`, and returns an
identifier whose syntax context is reset to empty
(`span.ctxt = SyntaxContext::empty()`). -/
def Hoist.get_export_ident (st : Hoist) (_span_ctxt : Ctxt)
    (exported : String) : Ident × Hoist :=
  let new_name :=
    if exported = "*" then exportsName st.module_id
    else exportName st.module_id exported
  (⟨new_name, []⟩,
   { st with exported_symbols := entryOrInsert exported new_name st.exported_symbols })

/-- `fold_ident` (hoist.rs lines 534-585), after the imports lookup failed or
fell through: the exports lookup, the free-`exports` rule, the free-`global`
rule, and the top-level `$M$var$` rename. -/
def foldIdentRest (st : Hoist) (node : Ident) : Ident × Hoist :=
  match alookup st.collect.exports node.toId with
  | some exported =>
    if st.collect.should_wrap then
      -- if wrapped, mark the original symbol as exported and keep the node
      (node, { st with exported_symbols := entryOrInsert exported node.sym st.exported_symbols })
    else st.get_export_ident node.ctxt exported
  | none =>
    if node.sym = "exports" ∧ node.toId ∉ st.collect.decls ∧
        st.collect.should_wrap = false then
      let st := { st with self_references := sinsert "*" st.self_references }
      st.get_export_ident node.ctxt "*"
    else if node.sym = "global" ∧ node.toId ∉ st.collect.decls then
      (⟨"$parcel$global", node.ctxt⟩, st)
    else if node.ctxt = st.global_ctxt ∧ node.toId ∈ st.collect.decls ∧
        st.collect.should_wrap = false then
      (⟨varName st.module_id node.sym, node.ctxt⟩, st)
    else (node, st)

/-- `fold_ident` (hoist.rs lines 534-585). -/
def fold_ident (st : Hoist) (node : Ident) : Ident × Hoist :=
  match alookup st.collect.imports node.toId with
  | some (source, localName, is_async) =>
    if source ∉ st.collect.non_static_requires then
      if is_async then
        if localName ≠ "*" then
          let st := { st with imported_symbols := ainsert (asyncName2 st.module_id source localName) (source, localName) st.imported_symbols }
          foldIdentRest st node
        else if node.toId ∈ st.collect.non_static_access then
          let st := { st with imported_symbols := ainsert (asyncName st.module_id source) (source, "*") st.imported_symbols }
          foldIdentRest st node
        else foldIdentRest st node
      else st.get_import_ident node.ctxt source localName
    else foldIdentRest st node
  | none => foldIdentRest st node

/-- The static member key of `fold_expr`'s member case (hoist.rs lines
383-398) and of the static-CJS branch of `fold_assign_expr` (lines 629-648):
a non-computed identifier property or a string-literal property. -/
def memberKey (prop : Expr) (computed : Bool) : Option String :=
  match prop with
  | .ident i => if !computed then some i.sym else none
  | .lit l => (match l with | .str s => some s | _ => none)
  | _ => none

/-- Non-recursive shape probe: an identifier expression. -/
def exprIdent (e : Expr) : Option Ident :=
  match e with
  | .ident i => some i
  | _ => none

/-- Non-recursive shape probe: a member expression matching `module.exports`. -/
def exprIsModuleExports (e : Expr) (decls : List IdentId) : Bool :=
  match e with
  | .member m2 => matchModuleExports m2 decls
  | _ => false

mutual

/-- `fold_expr` (hoist.rs lines 375-506).  The member case is factored into
`foldMemberExpr`; identifiers dispatch to `fold_ident` and sequence /
assignment expressions to their hooks, as swc's `fold_children_with` does. -/
def fold_expr (st : Hoist) (node : Expr) : Expr × Hoist :=
  match node with
  | .ident i =>
    let r := fold_ident st i
    (.ident r.1, r.2)
  | .lit l => (.lit l, st)
  | .member m => foldMemberExpr st m
  | .call (.mk callee args) =>
    (match match_require (.call (.mk callee args)) st.collect.decls
        st.collect.ignore_mark with
     | some source =>
       -- require('foo') -> $id$import$foo
       let st := st.add_require source
       let r := st.get_import_ident [] source "*"
       (.ident r.1, r.2)
     | none =>
       match match_import (.call (.mk callee args)) st.collect.ignore_mark with
       | some source =>
         let st := st.add_require source
         let name := asyncName st.module_id source
         let st := { st with dynamic_imports := ainsert name source st.dynamic_imports }
         let st :=
           if source ∈ st.collect.non_static_requires ∨ st.collect.should_wrap then
             { st with imported_symbols := ainsert name (source, "*") st.imported_symbols }
           else st
         -- Ident::new(name, call.span): the call's span context
         (.ident ⟨name, []⟩, st)
       | none =>
         -- fold_children: callee, then the arguments
         let rc := foldCallee st callee
         let ra := foldExprList rc.2 args
         (.call (.mk rc.1 ra.1), ra.2))
  | .unary op arg =>
    -- typeof require -> "function" (hoist.rs lines 483-500)
    let replaced : Bool :=
      decide (op = .typeofOp) &&
      (match arg with
       | .ident ident =>
         decide (ident.sym = "require" ∧ ident.toId ∉ st.collect.decls)
       | _ => false)
    if replaced then (.lit (.str "function"), st)
    else
      let r := fold_expr st arg
      (.unary op r.1, r.2)
  | .awaitE arg =>
    let r := fold_expr st arg
    (.awaitE r.1, r.2)
  | .seq exprs =>
    -- fold_seq_expr hook (hoist.rs lines 508-532)
    let r := foldSeqList st exprs
    (.seq r.1, r.2)
  | .assign a =>
    let r := fold_assign_expr st a
    (.assign r.1, r.2)

/-- The member case of `fold_expr` (hoist.rs lines 377-453).  The trailing
`exports.foo` check and the children fold are written inline at each
fall-through point of the imports lookup. -/
def foldMemberExpr (st : Hoist) (node : MemberExpr) : Expr × Hoist :=
  match node with
  | .mk obj prop computed =>
    if st.collect.should_wrap = false ∧
        matchModuleExports (.mk obj prop computed) st.collect.decls then
      -- module.exports -> $id$exports
      let st := { st with self_references := sinsert "*" st.self_references }
      let r := st.get_export_ident [] "*"
      (.ident r.1, r.2)
    else
      match memberKey prop computed with
      | none =>
        -- fold_children: the object, then the property
        let ro := foldCallee st obj
        let rp := fold_expr ro.2 prop
        (.member (.mk ro.1 rp.1 computed), rp.2)
      | some key =>
        match obj with
        | .cexpr e =>
          (match exprIdent e with
           | some ident =>
             -- y.foo where y is an imported namespace (hoist.rs lines 403-417)
             (match alookup st.collect.imports ident.toId with
              | some (source, localName, is_async) =>
                if localName = "*" ∧ ident.toId ∉ st.collect.non_static_access ∧
                    source ∉ st.collect.non_static_requires then
                  if is_async then
                    let st := { st with imported_symbols := ainsert (asyncName2 st.module_id source key) (source, key) st.imported_symbols }
                    -- exports.foo -> $id$export$foo (hoist.rs lines 419-426)
                    if ident.sym = "exports" ∧ ident.toId ∉ st.collect.decls ∧
                        st.collect.static_cjs_exports ∧
                        st.collect.should_wrap = false then
                      let st := { st with self_references := sinsert key st.self_references }
                      let r := st.get_export_ident [] key
                      (.ident r.1, r.2)
                    else
                      let ri := fold_ident st ident
                      let rp := fold_expr ri.2 prop
                      (.member (.mk (.cexpr (.ident ri.1)) rp.1 computed), rp.2)
                  else
                    let r := st.get_import_ident [] source key
                    (.ident r.1, r.2)
                else
                  -- exports.foo -> $id$export$foo (hoist.rs lines 419-426)
                  if ident.sym = "exports" ∧ ident.toId ∉ st.collect.decls ∧
                      st.collect.static_cjs_exports ∧
                      st.collect.should_wrap = false then
                    let st := { st with self_references := sinsert key st.self_references }
                    let r := st.get_export_ident [] key
                    (.ident r.1, r.2)
                  else
                    let ri := fold_ident st ident
                    let rp := fold_expr ri.2 prop
                    (.member (.mk (.cexpr (.ident ri.1)) rp.1 computed), rp.2)
              | none =>
                -- exports.foo -> $id$export$foo (hoist.rs lines 419-426)
                if ident.sym = "exports" ∧ ident.toId ∉ st.collect.decls ∧
                    st.collect.static_cjs_exports ∧
                    st.collect.should_wrap = false then
                  let st := { st with self_references := sinsert key st.self_references }
                  let r := st.get_export_ident [] key
                  (.ident r.1, r.2)
                else
                  let ri := fold_ident st ident
                  let rp := fold_expr ri.2 prop
                  (.member (.mk (.cexpr (.ident ri.1)) rp.1 computed), rp.2))
           | none =>
             match match_require e st.collect.decls st.collect.ignore_mark with
             | some source =>
               -- require('foo').bar -> $id$import$foo$bar
               let st := st.add_require source
               let r := st.get_import_ident [] source key
               (.ident r.1, r.2)
             | none =>
               if st.collect.static_cjs_exports ∧
                   st.collect.should_wrap = false ∧
                   exprIsModuleExports e st.collect.decls then
                 -- module.exports.foo -> $id$export$foo
                 let st := { st with self_references := sinsert key st.self_references }
                 let r := st.get_export_ident [] key
                 (.ident r.1, r.2)
               else
                 -- fold_children
                 let re := fold_expr st e
                 let rp := fold_expr re.2 prop
                 (.member (.mk (.cexpr re.1) rp.1 computed), rp.2))
        | .csuper =>
          -- fold_children; a Super object has no folded parts
          let rp := fold_expr st prop
          (.member (.mk .csuper rp.1 computed), rp.2)

def foldCallee (st : Hoist) (c : Callee) : Callee × Hoist :=
  match c with
  | .cexpr e =>
    let r := fold_expr st e
    (.cexpr r.1, r.2)
  | .csuper => (.csuper, st)

def foldExprList (st : Hoist) (es : List Expr) : List Expr × Hoist :=
  match es with
  | [] => ([], st)
  | e :: rest =>
    let r := fold_expr st e
    let rr := foldExprList r.2 rest
    (r.1 :: rr.1, rr.2)

/-- The body of `fold_seq_expr` (hoist.rs lines 508-532): every expression is
folded, and a non-final expression that is a bare `require(s)` call is
additionally wrapped in a `!` unary so a later cleanup pass keeps it. -/
def foldSeqList (st : Hoist) (es : List Expr) : List Expr × Hoist :=
  match es with
  | [] => ([], st)
  | [e] =>
    let r := fold_expr st e
    ([r.1], r.2)
  | e :: rest =>
    let r1 :=
      if (match_require e st.collect.decls st.collect.ignore_mark).isSome then
        let r := fold_expr st e
        (Expr.unary .bang r.1, r.2)
      else fold_expr st e
    let rr := foldSeqList r1.2 rest
    (r1.1 :: rr.1, rr.2)

/-- `fold_assign_expr` (hoist.rs lines 587-672).  The left-hand side is a
member expression either directly (`PatOrExpr::Expr`) or through
`Pat::Expr`; both shapes carry the same logic, written out per shape so the
children fold can rebuild the same wrapper. -/
def fold_assign_expr (st : Hoist) (node : AssignExpr) : AssignExpr × Hoist :=
  match node with
  | .mk (.pexpr (.member m)) right =>
    if st.collect.should_wrap then
      -- fold_children
      let rm := foldMemberExpr st m
      let rr := fold_expr rm.2 right
      (.mk (.pexpr rm.1) rr.1, rr.2)
    else
      if matchModuleExports m st.collect.decls then
        -- module.exports = rhs (hoist.rs lines 604-610)
        let r := st.get_export_ident [] "*"
        let rr := fold_expr r.2 right
        (.mk (.pat (.pid r.1)) rr.1, rr.2)
      else
        let is_cjs_exports : Bool :=
          match m with
          | .mk mobj _ _ =>
            match mobj with
            | .cexpr e2 =>
              (match e2 with
               | .member m2 => matchModuleExports m2 st.collect.decls
               | .ident i => decide (i.sym = "exports" ∧ i.toId ∉ st.collect.decls)
               | _ => false)
            | _ => false
        if is_cjs_exports then
          if st.collect.static_cjs_exports then
            match m with
            | .mk mobj2 prop computed =>
              match memberKey prop computed with
              | some key =>
                let r := st.get_export_ident [] key
                let st := { r.2 with export_decls := einsert r.1.sym r.2.export_decls }
                let rr := fold_expr st right
                (.mk (.pat (.pid r.1)) rr.1, rr.2)
              | none =>
                -- `unreachable!("Unexpected non-static CJS export")` in the
                -- source: Collect never leaves `static_cjs_exports` set when
                -- a CJS export key has this shape.  Modeled as the identity.
                (.mk (.pexpr (.member (.mk mobj2 prop computed))) right, st)
          else
            match m with
            | .mk _ prop computed =>
              let r := st.get_export_ident [] "*"
              let rp := fold_expr r.2 prop
              let rr := fold_expr rp.2 right
              (.mk (.pat (.pexprP (.member (.mk (.cexpr (.ident r.1)) rp.1 computed))))
                 rr.1, rr.2)
        else
          -- fold_children: the member through its `fold_expr` case, then
          -- the right-hand side
          let rm := foldMemberExpr st m
          let rr := fold_expr rm.2 right
          (.mk (.pexpr rm.1) rr.1, rr.2)

  | .mk (.pat (.pexprP (.member m))) right =>
    if st.collect.should_wrap then
      -- fold_children
      let rm := foldMemberExpr st m
      let rr := fold_expr rm.2 right
      (.mk (.pat (.pexprP rm.1)) rr.1, rr.2)
    else
      if matchModuleExports m st.collect.decls then
        -- module.exports = rhs (hoist.rs lines 604-610)
        let r := st.get_export_ident [] "*"
        let rr := fold_expr r.2 right
        (.mk (.pat (.pid r.1)) rr.1, rr.2)
      else
        let is_cjs_exports : Bool :=
          match m with
          | .mk mobj _ _ =>
            match mobj with
            | .cexpr e2 =>
              (match e2 with
               | .member m2 => matchModuleExports m2 st.collect.decls
               | .ident i => decide (i.sym = "exports" ∧ i.toId ∉ st.collect.decls)
               | _ => false)
            | _ => false
        if is_cjs_exports then
          if st.collect.static_cjs_exports then
            match m with
            | .mk mobj2 prop computed =>
              match memberKey prop computed with
              | some key =>
                let r := st.get_export_ident [] key
                let st := { r.2 with export_decls := einsert r.1.sym r.2.export_decls }
                let rr := fold_expr st right
                (.mk (.pat (.pid r.1)) rr.1, rr.2)
              | none =>
                -- `unreachable!("Unexpected non-static CJS export")` in the
                -- source: Collect never leaves `static_cjs_exports` set when
                -- a CJS export key has this shape.  Modeled as the identity.
                (.mk (.pat (.pexprP (.member (.mk mobj2 prop computed)))) right, st)
          else
            match m with
            | .mk _ prop computed =>
              let r := st.get_export_ident [] "*"
              let rp := fold_expr r.2 prop
              let rr := fold_expr rp.2 right
              (.mk (.pat (.pexprP (.member (.mk (.cexpr (.ident r.1)) rp.1 computed))))
                 rr.1, rr.2)
        else
          -- fold_children: the member through its `fold_expr` case, then
          -- the right-hand side
          let rm := foldMemberExpr st m
          let rr := fold_expr rm.2 right
          (.mk (.pat (.pexprP rm.1)) rr.1, rr.2)

  | .mk left right =>
    -- fold_children (also taken when should_wrap is set)
    let rl := foldPatOrExpr st left
    let rr := fold_expr rl.2 right
    (.mk rl.1 rr.1, rr.2)

def foldPatOrExpr (st : Hoist) (p : PatOrExpr) : PatOrExpr × Hoist :=
  match p with
  | .pat pat =>
    let r := foldPat st pat
    (.pat r.1, r.2)
  | .pexpr e =>
    let r := fold_expr st e
    (.pexpr r.1, r.2)

def foldPat (st : Hoist) (p : Pat) : Pat × Hoist :=
  match p with
  | .pid i =>
    let r := fold_ident st i
    (.pid r.1, r.2)
  | .pobject props =>
    let r := foldOPPList st props
    (.pobject r.1, r.2)
  | .passign left right =>
    let rl := foldPat st left
    let rr := fold_expr rl.2 right
    (.passign rl.1 rr.1, rr.2)
  | .pexprP e =>
    let r := fold_expr st e
    (.pexprP r.1, r.2)

def foldOPPList (st : Hoist) (props : List ObjectPatProp) :
    List ObjectPatProp × Hoist :=
  match props with
  | [] => ([], st)
  | p :: rest =>
    let r := fold_object_pat_prop st p
    let rr := foldOPPList r.2 rest
    (r.1 :: rr.1, rr.2)

/-- `fold_object_pat_prop` (hoist.rs lines 711-738): unless wrapping,
shorthand `{a}` / `{a = d}` properties become key-value properties so the
value identifier can be renamed; everything else folds its children. -/
def fold_object_pat_prop (st : Hoist) (node : ObjectPatProp) :
    ObjectPatProp × Hoist :=
  match node with
  | .assignP key value =>
    if st.collect.should_wrap then
      -- fold_children
      let rk := fold_ident st key
      (match value with
       | some v =>
         let rv := fold_expr rk.2 v
         (.assignP rk.1 (some rv.1), rv.2)
       | none => (.assignP rk.1 none, rk.2))
    else
      (match value with
       | some v =>
         let rk := fold_ident st key
         let rv := fold_expr rk.2 v
         (.kv (.pnIdent ⟨key.sym, []⟩) (.passign (.pid rk.1) rv.1), rv.2)
       | none =>
         let rk := fold_ident st key
         (.kv (.pnIdent ⟨key.sym, []⟩) (.pid rk.1), rk.2))
  | .kv key value =>
    -- fold_children
    let rk := foldPropName st key
    let rv := foldPat rk.2 value
    (.kv rk.1 rv.1, rv.2)
  | .restP arg =>
    -- fold_children
    let ra := foldPat st arg
    (.restP ra.1, ra.2)

def foldPropName (st : Hoist) (p : PropName) : PropName × Hoist :=
  match p with
  | .pnIdent i =>
    let r := fold_ident st i
    (.pnIdent r.1, r.2)
  | .pnStr s => (.pnStr s, st)
  | .pnComputed e =>
    let r := fold_expr st e
    (.pnComputed r.1, r.2)

end

/-- Default children fold of a `VarDeclarator`: its pattern, then its
initializer. -/
def foldVarDeclarator (st : Hoist) (d : VarDeclarator) :
    VarDeclarator × Hoist :=
  let rn := foldPat st d.name
  match d.init with
  | some e =>
    let ri := fold_expr rn.2 e
    ({ name := rn.1, init := some ri.1 }, ri.2)
  | none => ({ name := rn.1, init := none }, rn.2)

def foldVarDeclList (st : Hoist) (ds : List VarDeclarator) :
    List VarDeclarator × Hoist :=
  match ds with
  | [] => ([], st)
  | d :: rest =>
    let r := foldVarDeclarator st d
    let rr := foldVarDeclList r.2 rest
    (r.1 :: rr.1, rr.2)

/-- Default statement fold (statements reachable in this embedding have no
custom hook). -/
def foldStmt (st : Hoist) (node : Stmt) : Stmt × Hoist :=
  match node with
  | .sdecl var =>
    let r := foldVarDeclList st var.decls
    (.sdecl { var with decls := r.1 }, r.2)
  | .sexpr e =>
    let r := fold_expr st e
    (.sexpr r.1, r.2)
  | .sreturn arg =>
    match arg with
    | some e =>
      let r := fold_expr st e
      (.sreturn (some r.1), r.2)
    | none => (.sreturn none, st)

/-! ## `fold_module` (hoist.rs lines 98-357) and the entry point -/

/-- Flush the accumulated declarators of the variable-declaration splitting
loop as one `var` statement with the original declaration's kind. -/
def flushAcc (kind : VarKind) (acc : List VarDeclarator) : List ModuleItem :=
  if acc.isEmpty then [] else [.mstmt (.sdecl ⟨kind, acc⟩)]

/-- The variable-declaration splitting loop of `fold_module` (hoist.rs lines
237-313): a declarator whose initializer is `require(s)` or `require(s).K`
with `s` static is dropped for a bare import; deferred imports produced while
folding a declarator are flushed before it. -/
def splitVarDecls (st : Hoist) (kind : VarKind) (acc : List VarDeclarator) :
    List VarDeclarator → List ModuleItem × Hoist
  | [] => (flushAcc kind acc, st)
  | v :: rest =>
    let splitSource : Option String :=
      match v.init with
      | none => none
      | some init =>
        match match_require init st.collect.decls st.collect.ignore_mark with
        | some source =>
          if source ∈ st.collect.non_static_requires then none else some source
        | none =>
          match init with
          | .member (.mk (.cexpr objE) _ _) =>
            (match match_require objE st.collect.decls st.collect.ignore_mark with
             | some source =>
               if source ∈ st.collect.non_static_requires then none
               else some source
             | none => none)
          | _ => none
    match splitSource with
    | some source =>
      let r := splitVarDecls st kind [] rest
      (flushAcc kind acc ++ [synthImport st.module_id source] ++ r.1, r.2)
    | none =>
      let rd := foldVarDeclarator st v
      if rd.2.requires_in_stmt.isEmpty then
        splitVarDecls rd.2 kind (acc ++ [rd.1]) rest
      else
        let pre := flushAcc kind acc ++ rd.2.requires_in_stmt
        let st2 := { rd.2 with requires_in_stmt := [] }
        let r := splitVarDecls st2 kind [rd.1] rest
        (pre ++ r.1, r.2)

/-- One specifier of `export { … } from 's'` (hoist.rs lines 126-142). -/
def foldExportSpecifierSrc (src : String) (st : Hoist)
    (spec : ExportSpecifier) : Hoist :=
  match spec with
  | .named orig exported =>
    let exportedName := match exported with | some e => e.sym | none => orig.sym
    { st with re_exports := st.re_exports ++ [(exportedName, src, orig.sym)] }
  | .defaultE exported =>
    { st with re_exports := st.re_exports ++ [(exported.sym, src, "default")] }
  | .namespaceE name =>
    { st with re_exports := st.re_exports ++ [(name.sym, src, "*")] }

/-- One specifier of a source-less `export { … }` (hoist.rs lines 144-168):
a tracked import becomes a re-export; otherwise the binding's canonical
exported name is looked up in Collect's `exports` and the entry is remapped
into `exported_symbols` (first-writer-wins). -/
def foldExportSpecifierNoSrc (st : Hoist) (spec : ExportSpecifier) : Hoist :=
  match spec with
  | .named orig exported =>
    let exportedName := match exported with | some e => e.sym | none => orig.sym
    (match alookup st.collect.imports orig.toId with
     | some (source, localName, _) =>
       { st with re_exports := st.re_exports ++ [(exportedName, source, localName)] }
     | none =>
       match alookup st.collect.exports orig.toId with
       | some orig_exported =>
         if st.collect.should_wrap then
           { st with exported_symbols := entryOrInsert exportedName orig_exported st.exported_symbols }
         else
           let r := st.get_export_ident [] orig_exported
           { r.2 with exported_symbols := entryOrInsert exportedName r.1.sym r.2.exported_symbols }
       | none =>
         -- `.unwrap()` in the source: Collect has recorded every source-less
         -- named-export specifier, so this lookup cannot fail after `hoist()`
         st)
  | _ => st

/-- One iteration of the `fold_module` item loop: yields the items pushed to
`hoisted_imports`, the items pushed to `items`, and the updated state. -/
def foldModuleItemStep (st : Hoist) (item : ModuleItem) :
    List ModuleItem × List ModuleItem × Hoist :=
  match item with
  | .mdecl (.importD _specifiers src) =>
    -- import 's' -> import "M:s" with the specifiers dropped
    ([synthImport st.module_id src], [], st)
  | .mdecl (.exportNamed specifiers (some src)) =>
    ([synthImport st.module_id src], [],
     specifiers.foldl (foldExportSpecifierSrc src) st)
  | .mdecl (.exportNamed specifiers none) =>
    ([], [], specifiers.foldl foldExportSpecifierNoSrc st)
  | .mdecl (.exportAll src) =>
    ([synthImport st.module_id src], [],
     { st with re_exports := st.re_exports ++ [("*", src, "*")] })
  | .mdecl (.exportDefaultExpr e) =>
    -- export default <expr> (hoist.rs lines 181-201); the export identifier
    -- is generated before the expression is folded, and pending deferred
    -- imports are flushed before the emitted declaration
    let r := st.get_export_ident [] "default"
    let ri := fold_expr r.2 e
    let pre := ri.2.requires_in_stmt
    let st := { ri.2 with requires_in_stmt := [] }
    ([], pre ++ [.mstmt (.sdecl ⟨.varK, [⟨.pid r.1, some ri.1⟩]⟩)], st)
  | .mdecl (.exportDecl var) =>
    -- export <var decl> (hoist.rs lines 225-227): drop the export wrapper
    -- and fold the declaration normally (no deferred-import flush here)
    let r := foldVarDeclList st var.decls
    ([], [.mstmt (.sdecl ⟨var.kind, r.1⟩)], r.2)
  | .mstmt (.sdecl var) =>
    let r := splitVarDecls st var.kind [] var.decls
    ([], r.1, r.2)
  | .mstmt s =>
    -- any other statement: fold it and flush deferred imports before it
    let r := foldStmt st s
    let pre := r.2.requires_in_stmt
    let st := { r.2 with requires_in_stmt := [] }
    ([], pre ++ [.mstmt r.1], st)

def foldModuleLoop (st : Hoist) :
    List ModuleItem → List ModuleItem × List ModuleItem × Hoist
  | [] => ([], [], st)
  | item :: rest =>
    let r := foldModuleItemStep st item
    let rr := foldModuleLoop r.2.2 rest
    (r.1 ++ rr.1, r.2.1 ++ rr.2.1, rr.2.2)

/-- `fold_module` (hoist.rs lines 98-357).  After the item loop, one ambient
`var $M$export$K;` declaration is appended to `hoisted_imports` for each name
in `export_decls` — a `std::collections::HashSet`, whose iteration order is
the parameter `ord` (any function; the Rust standard library does not fix
the order) — and the result is spliced in front of the rewritten items. -/
def fold_module (ord : List String → List String) (st : Hoist)
    (node : Module) : Module × Hoist :=
  let r := foldModuleLoop st node.body
  let st := r.2.2
  let exportVars := (ord st.export_decls).map (fun name =>
    ModuleItem.mstmt (.sdecl ⟨.varK, [⟨.pid ⟨name, []⟩, none⟩]⟩))
  ({ body := (r.1 ++ exportVars) ++ r.2.1 }, st)

/-- The entry point `hoist(module, source_map, module_id, decls, ignore_mark,
global_mark)` (hoist.rs lines 29-36), with the iteration order of
`export_decls` passed explicitly. -/
def hoistOrd (ord : List String → List String) (module : Module)
    (module_id : String) (decls : List IdentId)
    (ignore_mark global_mark : Mark) : Module × HoistResult :=
  let collect := collectModule module decls ignore_mark
  let h := Hoist.new module_id collect global_mark
  let r := fold_module ord h module
  (r.1, r.2.get_result)

/-- `hoist` with the insertion order of `export_decls` (one of the possible
`HashSet` iteration orders). -/
def hoist (module : Module) (module_id : String) (decls : List IdentId)
    (ignore_mark global_mark : Mark) : Module × HoistResult :=
  hoistOrd (fun l => l) module module_id decls ignore_mark global_mark

/-! ## Concrete inputs and output projections

Small modules exercising single features, used to instantiate and to refute
the claimed properties, plus projections that read one fact out of an output
module (the AST types carry no `DecidableEq`, so facts about output modules
are stated through these projections or by plain equality).

Conventions of the concrete runs: `module_id = "abc"`, `ignore_mark = 2`,
`global_mark = 1`; identifiers written in the source carry the context `[1]`
(the global mark), synthesized ones `[]`. -/

/-- The identifiers of the module's top-level expression statements that are
bare identifier expressions. -/
def stmtIdents (m : Module) : List Ident :=
  m.body.filterMap (fun item =>
    match item with
    | .mstmt (.sexpr (.ident i)) => some i
    | _ => none)

/-- The name declared by the module's first item, when that item is a
variable declaration whose first declarator binds a plain identifier. -/
def firstDeclName (m : Module) : Option String :=
  match m.body.head? with
  | some (.mstmt (.sdecl v)) =>
    (match v.decls.head? with
     | some d => (match d.name with | .pid i => some i.sym | _ => none)
     | none => none)
  | _ => none

/-- Modelled from the spec: `match_require` as the spec's words describe it —
the callee is a free, non-ignored identifier named `require` and "the sole
argument is the string literal s" (exactly one argument).  Compared against
the implementation's `match_require`, which reads `args.get(0)` and accepts
further arguments. -/
def matchRequireSpec (node : Expr) (decls : List IdentId)
    (ignore_mark : Mark) : Option String :=
  match node with
  | .call (.mk (.cexpr (.ident ident)) [.lit (.str s)]) =>
    if ident.sym = "require" ∧ ident.toId ∉ decls ∧
        is_marked ident.ctxt ignore_mark = false then
      some s
    else none
  | _ => none

/-- `exports.foo = 2;` -/
def m6 : Module := ⟨[.mstmt (.sexpr (.assign (.mk
  (.pexpr (.member (.mk (.cexpr (.ident ⟨"exports", [1]⟩)) (.ident ⟨"foo", []⟩) false)))
  (.lit (.num 2)))))]⟩

/-- `import('other');` -/
def m7 : Module := ⟨[.mstmt (.sexpr (.call (.mk (.cexpr (.ident ⟨"import", []⟩))
  [.lit (.str "other")])))]⟩

/-- `let x = await import('other'); x["*"];` -/
def m9 : Module := ⟨[
  .mstmt (.sdecl ⟨.letK, [⟨.pid ⟨"x", [1]⟩,
    some (.awaitE (.call (.mk (.cexpr (.ident ⟨"import", []⟩)) [.lit (.str "other")])))⟩]⟩),
  .mstmt (.sexpr (.member (.mk (.cexpr (.ident ⟨"x", [1]⟩)) (.lit (.str "*")) true)))]⟩

/-- `export {x}; export {x as y};` -/
def mC1 : Module := ⟨[
  .mdecl (.exportNamed [.named ⟨"x", [1]⟩ none] none),
  .mdecl (.exportNamed [.named ⟨"x", [1]⟩ (some ⟨"y", []⟩)] none)]⟩

/-- `import {foo as x} from 'other'; x;` -/
def mC2 : Module := ⟨[
  .mdecl (.importD [.named ⟨"x", [1]⟩ (some ⟨"foo", [1]⟩)] "other"),
  .mstmt (.sexpr (.ident ⟨"x", [1]⟩))]⟩

/-- `exports.a = 1; exports.b = 2;` -/
def mC3 : Module := ⟨[
  .mstmt (.sexpr (.assign (.mk
    (.pexpr (.member (.mk (.cexpr (.ident ⟨"exports", [1]⟩)) (.ident ⟨"a", []⟩) false)))
    (.lit (.num 1))))),
  .mstmt (.sexpr (.assign (.mk
    (.pexpr (.member (.mk (.cexpr (.ident ⟨"exports", [1]⟩)) (.ident ⟨"b", []⟩) false)))
    (.lit (.num 2)))))]⟩

/-- `require('x');` as a whole top-level expression statement. -/
def mC5 : Module := ⟨[.mstmt (.sexpr (.call (.mk (.cexpr (.ident ⟨"require", [1]⟩))
  [.lit (.str "x")])))]⟩

/-- `export {global}; global;` -/
def mC10 : Module := ⟨[
  .mdecl (.exportNamed [.named ⟨"global", [1]⟩ none] none),
  .mstmt (.sexpr (.ident ⟨"global", [1]⟩))]⟩

/-! ## Invariants of the Hoist state

`SInv M st` collects the name-schema facts about the three result tables
that are maintained by every state transition of the fold:

* every `dynamic_imports` entry maps `$M$importAsync$H(s)` to `s`;
* every `imported_symbols` entry follows the import-name schema, where an
  entry whose `local` is `"*"` is a whole-namespace name — except that the
  async member-access rule can produce `$M$importAsync$H(s)$H("*")` for a
  property literally named `*`;
* while `should_wrap` is false, every `exported_symbols` value is
  `$M$exports` or `$M$export$e0` for some exported name `e0`. -/

def impEntryOK (M : String) (p : String × String × String) : Prop :=
  (p.2.2 = "*" ∧ (p.1 = importName M p.2.1 ∨ p.1 = asyncName M p.2.1 ∨
      p.1 = asyncName2 M p.2.1 "*"))
  ∨ (p.2.2 ≠ "*" ∧ (p.1 = importName2 M p.2.1 p.2.2 ∨
      p.1 = asyncName2 M p.2.1 p.2.2))

def expEntryOK (M : String) (p : String × String) : Prop :=
  p.2 = exportsName M ∨ ∃ e0, p.2 = exportName M e0

def SInv (M : String) (st : Hoist) : Prop :=
  st.module_id = M ∧
  (∀ p ∈ st.dynamic_imports, p.1 = asyncName M p.2) ∧
  (∀ p ∈ st.imported_symbols, impEntryOK M p) ∧
  (st.collect.should_wrap = false → ∀ p ∈ st.exported_symbols, expEntryOK M p)

/-! ## Association-list lemmas -/

section AListLemmas

variable {α : Type} {β : Type} [DecidableEq α]

theorem mem_aerase {m : List (α × β)} {key : α} {q : α × β}
    (h : q ∈ aerase m key) : q ∈ m := by
  induction m with
  | nil => simp [aerase] at h
  | cons p rest ih =>
    obtain ⟨k, v⟩ := p
    by_cases hk : k = key
    · simp only [aerase, if_pos hk] at h
      exact List.mem_cons_of_mem _ (ih h)
    · simp only [aerase, if_neg hk, List.mem_cons] at h
      rcases h with h | h
      · exact h ▸ List.mem_cons_self _ _
      · exact List.mem_cons_of_mem _ (ih h)

theorem mem_ainsert {m : List (α × β)} {key : α} {val : β} {q : α × β}
    (h : q ∈ ainsert key val m) : q = (key, val) ∨ q ∈ m := by
  simp only [ainsert, List.mem_cons] at h
  rcases h with h | h
  · exact Or.inl h
  · exact Or.inr (mem_aerase h)

theorem mem_entryOrInsert {m : List (α × β)} {key : α} {val : β} {q : α × β}
    (h : q ∈ entryOrInsert key val m) : q = (key, val) ∨ q ∈ m := by
  unfold entryOrInsert at h
  rcases he : alookup m key with _ | v0 <;> rw [he] at h
  · rcases List.mem_cons.mp h with h | h
    · exact Or.inl h
    · exact Or.inr h
  · exact Or.inr h

theorem mem_sinsert_of_mem {s : List α} {a b : α} (h : b ∈ s) : b ∈ sinsert a s := by
  unfold sinsert; split
  · exact h
  · exact List.mem_cons_of_mem _ h

theorem self_mem_sinsert (a : α) (s : List α) : a ∈ sinsert a s := by
  unfold sinsert; split
  · assumption
  · exact List.mem_cons_self _ _

theorem mem_sinsert {s : List α} {a b : α}
    (h : b ∈ sinsert a s) : b = a ∨ b ∈ s := by
  unfold sinsert at h; split at h
  · exact Or.inr h
  · rcases List.mem_cons.mp h with h | h
    · exact Or.inl h
    · exact Or.inr h

theorem mem_einsert {s : List α} {a b : α}
    (h : b ∈ einsert a s) : b = a ∨ b ∈ s := by
  unfold einsert at h; split at h
  · exact Or.inr h
  · rcases List.mem_append.mp h with h | h
    · exact Or.inr h
    · exact Or.inl (List.mem_singleton.mp h)

theorem foldl_preserves {σ γ : Type} (P : σ → Prop) (f : σ → γ → σ)
    (hf : ∀ st x, P st → P (f st x)) :
    ∀ (l : List γ) (st : σ), P st → P (l.foldl f st)
  | [], _, h => h
  | x :: rest, st, h => foldl_preserves P f hf rest (f st x) (hf st x h)

end AListLemmas

theorem SInv_congr {M : String} {st st' : Hoist} (h : SInv M st)
    (hmod : st'.module_id = st.module_id)
    (hdyn : st'.dynamic_imports = st.dynamic_imports)
    (himp : st'.imported_symbols = st.imported_symbols)
    (hexp : st'.exported_symbols = st.exported_symbols)
    (hwrap : st'.collect.should_wrap = st.collect.should_wrap) :
    SInv M st' := by
  obtain ⟨h1, h2, h3, h4⟩ := h
  refine ⟨hmod.trans h1, ?_, ?_, ?_⟩
  · rw [hdyn]; exact h2
  · rw [himp]; exact h3
  · intro hw
    rw [hexp]
    exact h4 (hwrap ▸ hw)

theorem SInv_add_require {M : String} {st : Hoist} (source : String)
    (h : SInv M st) : SInv M (st.add_require source) :=
  SInv_congr h rfl rfl rfl rfl rfl

theorem impEntryOK_import {M source localName : String} :
    impEntryOK M
      (if localName = "*" then importName M source
       else importName2 M source localName, source, localName) := by
  by_cases hl : localName = "*"
  · subst hl
    exact Or.inl ⟨rfl, Or.inl (by simp)⟩
  · exact Or.inr ⟨hl, Or.inl (by simp [hl])⟩

theorem impEntryOK_async2 {M source k : String} :
    impEntryOK M (asyncName2 M source k, source, k) := by
  by_cases hk : k = "*"
  · subst hk
    exact Or.inl ⟨rfl, Or.inr (Or.inr rfl)⟩
  · exact Or.inr ⟨hk, Or.inr rfl⟩

theorem impEntryOK_asyncNs {M source : String} :
    impEntryOK M (asyncName M source, source, "*") :=
  Or.inl ⟨rfl, Or.inr (Or.inl rfl)⟩

theorem SInv_get_import_ident {M : String} {st : Hoist} (c : Ctxt)
    (source localName : String) (h : SInv M st) :
    SInv M (st.get_import_ident c source localName).2 := by
  obtain ⟨h1, h2, h3, h4⟩ := h
  refine ⟨h1, h2, ?_, h4⟩
  intro p hp
  rcases mem_ainsert hp with hq | hq
  · subst hq
    subst h1
    exact impEntryOK_import
  · exact h3 p hq

theorem expEntryOK_name {M exported : String} :
    expEntryOK M
      (exported, if exported = "*" then exportsName M else exportName M exported) := by
  by_cases he : exported = "*"
  · exact Or.inl (by simp [he])
  · exact Or.inr ⟨exported, by simp [he]⟩

theorem SInv_get_export_ident {M : String} {st : Hoist} (c : Ctxt)
    (exported : String) (h : SInv M st) :
    SInv M (st.get_export_ident c exported).2 := by
  obtain ⟨h1, h2, h3, h4⟩ := h
  refine ⟨h1, h2, h3, ?_⟩
  intro hw p hp
  rcases mem_entryOrInsert hp with hq | hq
  · subst hq
    subst h1
    exact expEntryOK_name
  · exact h4 hw p hq

/-- The static-CJS assignment rewrite: `get_export_ident` followed by the
`export_decls` insertion (hoist.rs lines 650-653). -/
theorem SInv_get_export_with_decls {M : String} {st : Hoist} (c : Ctxt)
    (exported : String) (h : SInv M st) :
    SInv M { (st.get_export_ident c exported).2 with export_decls := einsert (st.get_export_ident c exported).1.sym (st.get_export_ident c exported).2.export_decls } :=
  SInv_congr (SInv_get_export_ident c exported h) rfl rfl rfl rfl rfl

/-- Any `entry(..).or_insert` into `exported_symbols` whose value satisfies
the schema (or whose context has `should_wrap` set) preserves the invariant. -/
theorem SInv_insert_exported {M : String} {st : Hoist} {exported v : String}
    (h : SInv M st)
    (hv : st.collect.should_wrap = false → expEntryOK M (exported, v)) :
    SInv M { st with exported_symbols := entryOrInsert exported v st.exported_symbols } := by
  obtain ⟨h1, h2, h3, h4⟩ := h
  refine ⟨h1, h2, h3, ?_⟩
  intro hw p hp
  rcases mem_entryOrInsert hp with hq | hq
  · subst hq
    exact hv hw
  · exact h4 hw p hq

theorem SInv_insert_async2 {M : String} {st : Hoist} (source k : String)
    (h : SInv M st) :
    SInv M { st with imported_symbols := ainsert (asyncName2 st.module_id source k) (source, k) st.imported_symbols } := by
  obtain ⟨h1, h2, h3, h4⟩ := h
  refine ⟨h1, h2, ?_, h4⟩
  intro p hp
  rcases mem_ainsert hp with hq | hq
  · subst hq
    subst h1
    exact impEntryOK_async2
  · exact h3 p hq

theorem SInv_insert_asyncNs {M : String} {st : Hoist} (source : String)
    (h : SInv M st) :
    SInv M { st with imported_symbols := ainsert (asyncName st.module_id source) (source, "*") st.imported_symbols } := by
  obtain ⟨h1, h2, h3, h4⟩ := h
  refine ⟨h1, h2, ?_, h4⟩
  intro p hp
  rcases mem_ainsert hp with hq | hq
  · subst hq
    subst h1
    exact impEntryOK_asyncNs
  · exact h3 p hq

theorem SInv_insert_dyn {M : String} {st : Hoist} (source : String)
    (h : SInv M st) :
    SInv M { st with dynamic_imports := ainsert (asyncName st.module_id source) source st.dynamic_imports } := by
  obtain ⟨h1, h2, h3, h4⟩ := h
  refine ⟨h1, ?_, h3, h4⟩
  intro p hp
  rcases mem_ainsert hp with hq | hq
  · subst hq
    subst h1
    rfl
  · exact h2 p hq

theorem SInv_foldIdentRest {M : String} (st : Hoist) (node : Ident)
    (h : SInv M st) : SInv M (foldIdentRest st node).2 := by
  unfold foldIdentRest
  split
  · split
    · rename_i hwrap
      exact SInv_insert_exported h (fun hw => absurd hw (by simp [hwrap]))
    · exact SInv_get_export_ident _ _ h
  · split
    · exact SInv_get_export_ident _ _ (SInv_congr h rfl rfl rfl rfl rfl)
    · split
      · exact h
      · split
        · exact h
        · exact h

theorem SInv_fold_ident {M : String} (st : Hoist) (node : Ident)
    (h : SInv M st) : SInv M (fold_ident st node).2 := by
  unfold fold_ident
  split
  · split
    · split
      · split
        · exact SInv_foldIdentRest _ _ (SInv_insert_async2 _ _ h)
        · split
          · exact SInv_foldIdentRest _ _ (SInv_insert_asyncNs _ h)
          · exact SInv_foldIdentRest _ _ h
      · exact SInv_get_import_ident _ _ _ h
    · exact SInv_foldIdentRest _ _ h
  · exact SInv_foldIdentRest _ _ h

set_option maxHeartbeats 4000000

mutual

theorem SInv_fold_expr {M : String} (node : Expr) (st : Hoist)
    (h : SInv M st) : SInv M (fold_expr st node).2 := by
  cases node with
  | ident i => simpa only [fold_expr] using SInv_fold_ident st i h
  | lit l => simpa only [fold_expr] using h
  | member m => simpa only [fold_expr] using SInv_foldMemberExpr m st h
  | call c =>
    cases c with
    | mk callee args =>
      simp only [fold_expr]
      split
      · try dsimp only
        exact SInv_get_import_ident _ _ _ (SInv_add_require _ h)
      · split
        · split
          · exact SInv_insert_asyncNs _ (SInv_insert_dyn _ (SInv_add_require _ h))
          · exact SInv_insert_dyn _ (SInv_add_require _ h)
        · try dsimp only
          exact SInv_foldExprList _ _ (SInv_foldCallee _ _ h)
  | unary op arg =>
    simp only [fold_expr]
    split
    · exact h
    · try dsimp only
      exact SInv_fold_expr arg st h
  | awaitE arg => simpa only [fold_expr] using SInv_fold_expr arg st h
  | seq exprs => simpa only [fold_expr] using SInv_foldSeqList exprs st h
  | assign a => simpa only [fold_expr] using SInv_fold_assign_expr a st h
termination_by sizeOf node
decreasing_by all_goals (simp_wf; try injections; try subst_vars; simp_arith)


theorem SInv_foldMemberExpr {M : String} (node : MemberExpr) (st : Hoist)
    (h : SInv M st) : SInv M (foldMemberExpr st node).2 := by
  rw [foldMemberExpr.eq_def]
  repeat' split
  all_goals try dsimp only
  all_goals repeat' split
  all_goals try dsimp only
  all_goals first
    | exact h
    | exact SInv_get_export_ident _ _ (SInv_congr h rfl rfl rfl rfl rfl)
    | exact SInv_get_export_ident _ _
        (SInv_congr (SInv_insert_async2 _ _ h) rfl rfl rfl rfl rfl)
    | exact SInv_get_import_ident _ _ _ h
    | exact SInv_get_import_ident _ _ _ (SInv_add_require _ h)
    | exact SInv_fold_expr _ _ (SInv_fold_ident _ _ h)
    | exact SInv_fold_expr _ _ (SInv_fold_ident _ _ (SInv_insert_async2 _ _ h))
    | exact SInv_fold_expr _ _ (SInv_foldCallee _ _ h)
    | exact SInv_fold_expr _ _ (SInv_fold_expr _ _ h)
    | exact SInv_fold_expr _ _ h
termination_by sizeOf node
decreasing_by all_goals (simp_wf; try injections; try subst_vars; simp_arith)


theorem SInv_foldCallee {M : String} (c : Callee) (st : Hoist)
    (h : SInv M st) : SInv M (foldCallee st c).2 := by
  cases c with
  | cexpr e => simpa only [foldCallee] using SInv_fold_expr e st h
  | csuper => simpa only [foldCallee] using h
termination_by sizeOf c
decreasing_by all_goals (simp_wf; try injections; try subst_vars; simp_arith)


theorem SInv_foldExprList {M : String} (es : List Expr) (st : Hoist)
    (h : SInv M st) : SInv M (foldExprList st es).2 := by
  cases es with
  | nil => simpa only [foldExprList] using h
  | cons e rest =>
    simpa only [foldExprList] using
      SInv_foldExprList rest _ (SInv_fold_expr e st h)
termination_by sizeOf es
decreasing_by all_goals (simp_wf; try injections; try subst_vars; simp_arith)


theorem SInv_foldSeqList {M : String} (es : List Expr) (st : Hoist)
    (h : SInv M st) : SInv M (foldSeqList st es).2 := by
  cases es with
  | nil => simpa only [foldSeqList] using h
  | cons e rest =>
    cases rest with
    | nil => simpa only [foldSeqList] using SInv_fold_expr e st h
    | cons e2 rest2 =>
      simp only [foldSeqList]
      split
      · try dsimp only
        exact SInv_foldSeqList _ _ (SInv_fold_expr e st h)
      · try dsimp only
        exact SInv_foldSeqList _ _ (SInv_fold_expr e st h)
termination_by sizeOf es
decreasing_by all_goals (simp_wf; try injections; try subst_vars; simp_arith)


theorem SInv_fold_assign_expr {M : String} (node : AssignExpr) (st : Hoist)
    (h : SInv M st) : SInv M (fold_assign_expr st node).2 := by
  rw [fold_assign_expr.eq_def]
  repeat' split
  all_goals try dsimp only
  all_goals repeat' split
  all_goals try dsimp only
  all_goals first
    | exact SInv_fold_expr _ _ (SInv_foldMemberExpr _ _ h)
    | exact SInv_fold_expr _ _ (SInv_get_export_ident _ _ h)
    | exact SInv_fold_expr _ _ (SInv_get_export_with_decls _ _ h)
    | exact h
    | exact SInv_fold_expr _ _ (SInv_fold_expr _ _ (SInv_get_export_ident _ _ h))
    | exact SInv_fold_expr _ _ (SInv_foldPatOrExpr _ _ h)
termination_by sizeOf node
decreasing_by all_goals (simp_wf; try injections; try subst_vars; simp_arith)


theorem SInv_foldPatOrExpr {M : String} (p : PatOrExpr) (st : Hoist)
    (h : SInv M st) : SInv M (foldPatOrExpr st p).2 := by
  cases p with
  | pat pat => simpa only [foldPatOrExpr] using SInv_foldPat pat st h
  | pexpr e => simpa only [foldPatOrExpr] using SInv_fold_expr e st h
termination_by sizeOf p
decreasing_by all_goals (simp_wf; try injections; try subst_vars; simp_arith)


theorem SInv_foldPat {M : String} (p : Pat) (st : Hoist)
    (h : SInv M st) : SInv M (foldPat st p).2 := by
  cases p with
  | pid i => simpa only [foldPat] using SInv_fold_ident st i h
  | pobject props => simpa only [foldPat] using SInv_foldOPPList props st h
  | passign l r =>
    simpa only [foldPat] using SInv_fold_expr r _ (SInv_foldPat l st h)
  | pexprP e => simpa only [foldPat] using SInv_fold_expr e st h
termination_by sizeOf p
decreasing_by all_goals (simp_wf; try injections; try subst_vars; simp_arith)


theorem SInv_foldOPPList {M : String} (props : List ObjectPatProp) (st : Hoist)
    (h : SInv M st) : SInv M (foldOPPList st props).2 := by
  cases props with
  | nil => simpa only [foldOPPList] using h
  | cons p rest =>
    simpa only [foldOPPList] using
      SInv_foldOPPList rest _ (SInv_fold_object_pat_prop p st h)
termination_by sizeOf props
decreasing_by all_goals (simp_wf; try injections; try subst_vars; simp_arith)


theorem SInv_fold_object_pat_prop {M : String} (node : ObjectPatProp)
    (st : Hoist) (h : SInv M st) :
    SInv M (fold_object_pat_prop st node).2 := by
  rw [fold_object_pat_prop.eq_def]
  repeat' split
  all_goals try dsimp only
  all_goals repeat' split
  all_goals try dsimp only
  all_goals first
    | exact h
    | exact SInv_fold_ident _ _ h
    | exact SInv_fold_expr _ _ (SInv_fold_ident _ _ h)
    | exact SInv_foldPat _ _ (SInv_foldPropName _ _ h)
    | exact SInv_foldPat _ _ h
termination_by sizeOf node
decreasing_by all_goals (simp_wf; try injections; try subst_vars; simp_arith)


theorem SInv_foldPropName {M : String} (p : PropName) (st : Hoist)
    (h : SInv M st) : SInv M (foldPropName st p).2 := by
  cases p with
  | pnIdent i => simpa only [foldPropName] using SInv_fold_ident st i h
  | pnStr s => simpa only [foldPropName] using h
  | pnComputed e => simpa only [foldPropName] using SInv_fold_expr e st h
termination_by sizeOf p
decreasing_by all_goals (simp_wf; try injections; try subst_vars; simp_arith)

end

theorem SInv_foldVarDeclarator {M : String} (st : Hoist) (d : VarDeclarator)
    (h : SInv M st) : SInv M (foldVarDeclarator st d).2 := by
  unfold foldVarDeclarator
  split
  · exact SInv_fold_expr _ _ (SInv_foldPat _ _ h)
  · exact SInv_foldPat _ _ h

theorem SInv_foldVarDeclList {M : String} (ds : List VarDeclarator) :
    ∀ (st : Hoist), SInv M st → SInv M (foldVarDeclList st ds).2 := by
  induction ds with
  | nil => intro st h; simpa only [foldVarDeclList] using h
  | cons d rest ih =>
    intro st h
    simpa only [foldVarDeclList] using ih _ (SInv_foldVarDeclarator st d h)

theorem SInv_foldStmt {M : String} (st : Hoist) (node : Stmt)
    (h : SInv M st) : SInv M (foldStmt st node).2 := by
  unfold foldStmt
  split
  · exact SInv_foldVarDeclList _ _ h
  · exact SInv_fold_expr _ _ h
  · split
    · exact SInv_fold_expr _ _ h
    · exact h

theorem SInv_splitVarDecls {M : String} (ds : List VarDeclarator) :
    ∀ (st : Hoist) (kind : VarKind) (acc : List VarDeclarator), SInv M st →
      SInv M (splitVarDecls st kind acc ds).2 := by
  induction ds with
  | nil => intro st kind acc h; simpa only [splitVarDecls] using h
  | cons v rest ih =>
    intro st kind acc h
    simp only [splitVarDecls]
    split
    · exact ih _ _ _ h
    · split
      · exact ih _ _ _ (SInv_foldVarDeclarator st v h)
      · exact ih _ _ _
          (SInv_congr (SInv_foldVarDeclarator st v h) rfl rfl rfl rfl rfl)

theorem SInv_foldExportSpecifierSrc {M : String} (src : String) (st : Hoist)
    (spec : ExportSpecifier) (h : SInv M st) :
    SInv M (foldExportSpecifierSrc src st spec) := by
  unfold foldExportSpecifierSrc
  split <;> exact SInv_congr h rfl rfl rfl rfl rfl

theorem SInv_noSrcRemap {M : String} {st : Hoist} (exported orig_exported : String)
    (h : SInv M st) :
    SInv M { (st.get_export_ident [] orig_exported).2 with exported_symbols := entryOrInsert exported (st.get_export_ident [] orig_exported).1.sym (st.get_export_ident [] orig_exported).2.exported_symbols } := by
  refine SInv_insert_exported (SInv_get_export_ident _ _ h) ?_
  intro _
  obtain ⟨h1, -, -, -⟩ := h
  by_cases he : orig_exported = "*"
  · exact Or.inl (by simp [Hoist.get_export_ident, he, h1])
  · exact Or.inr ⟨orig_exported, by simp [Hoist.get_export_ident, he, h1]⟩

theorem SInv_foldExportSpecifierNoSrc {M : String} (st : Hoist)
    (spec : ExportSpecifier) (h : SInv M st) :
    SInv M (foldExportSpecifierNoSrc st spec) := by
  unfold foldExportSpecifierNoSrc
  split
  · dsimp only
    split
    · exact SInv_congr h rfl rfl rfl rfl rfl
    · split
      · split
        · rename_i hwrap
          exact SInv_insert_exported h (fun hw => absurd hw (by simp [hwrap]))
        · exact SInv_noSrcRemap _ _ h
      · exact h
  · exact h

theorem SInv_foldModuleItemStep {M : String} (st : Hoist) (item : ModuleItem)
    (h : SInv M st) : SInv M (foldModuleItemStep st item).2.2 := by
  unfold foldModuleItemStep
  split
  · exact h
  · exact foldl_preserves (SInv M) _ (fun st spec hs =>
      SInv_foldExportSpecifierSrc _ st spec hs) _ _ h
  · exact foldl_preserves (SInv M) _ (fun st spec hs =>
      SInv_foldExportSpecifierNoSrc st spec hs) _ _ h
  · exact SInv_congr h rfl rfl rfl rfl rfl
  · exact SInv_congr
      (SInv_fold_expr _ _ (SInv_get_export_ident _ _ h)) rfl rfl rfl rfl rfl
  · exact SInv_foldVarDeclList _ _ h
  · exact SInv_splitVarDecls _ _ _ _ h
  · exact SInv_congr (SInv_foldStmt _ _ h) rfl rfl rfl rfl rfl

theorem SInv_foldModuleLoop {M : String} (items : List ModuleItem) :
    ∀ (st : Hoist), SInv M st → SInv M (foldModuleLoop st items).2.2 := by
  induction items with
  | nil => intro st h; simpa only [foldModuleLoop] using h
  | cons item rest ih =>
    intro st h
    simpa only [foldModuleLoop] using ih _ (SInv_foldModuleItemStep st item h)

theorem SInv_fold_module {M : String} (ord : List String → List String)
    (st : Hoist) (node : Module) (h : SInv M st) :
    SInv M (fold_module ord st node).2 := by
  unfold fold_module
  exact SInv_foldModuleLoop _ _ h

theorem SInv_new (M : String) (collect : Collect) (gm : Mark) :
    SInv M (Hoist.new M collect gm) := by
  refine ⟨rfl, ?_, ?_, ?_⟩ <;> simp [Hoist.new]

/-- The final Hoist state of a `hoistOrd` run satisfies the table invariant. -/
theorem SInv_hoistOrd (M : String) (ord : List String → List String)
    (m : Module) (decls : List IdentId) (im gm : Mark) :
    SInv M (fold_module ord
      (Hoist.new M (collectModule m decls im) gm) m).2 :=
  SInv_fold_module ord _ m (SInv_new M (collectModule m decls im) gm)

/-! ## Monotonicity of `wrapped_requires` in Collect

The analysis only ever inserts into `wrapped_requires`; no visit method
removes an element.  This is what lets the `require(s)` insertion at the top
of `visit_call_expr` survive the rest of the traversal. -/

theorem wr_vceRequire (n : CallExpr) (st : Collect) {s : String}
    (hs : s ∈ st.wrapped_requires) : s ∈ (vceRequire st n).wrapped_requires := by
  unfold vceRequire
  split
  · exact mem_sinsert_of_mem hs
  · exact hs

theorem wr_vceImport (n : CallExpr) (st : Collect) {s : String}
    (hs : s ∈ st.wrapped_requires) : s ∈ (vceImport st n).wrapped_requires := by
  unfold vceImport
  split
  · exact mem_sinsert_of_mem hs
  · exact hs

theorem wr_vceEval (e : Expr) (st : Collect) {s : String}
    (hs : s ∈ st.wrapped_requires) : s ∈ (vceEval st e).wrapped_requires := by
  unfold vceEval
  repeat' split
  all_goals exact hs

mutual

theorem wr_visit_expr (node : Expr) (st : Collect) {s : String}
    (hs : s ∈ st.wrapped_requires) :
    s ∈ (visit_expr st node).wrapped_requires := by
  cases node with
  | ident i =>
    simp only [visit_expr]
    repeat' split
    all_goals exact hs
  | lit l => simpa only [visit_expr] using hs
  | call c => simpa only [visit_expr] using wr_visit_call_expr c st hs
  | member m => simpa only [visit_expr] using wr_visit_member_expr m st hs
  | unary op arg => simpa only [visit_expr] using wr_visit_expr arg st hs
  | awaitE arg => simpa only [visit_expr] using wr_visit_expr arg st hs
  | seq exprs => simpa only [visit_expr] using wr_visitExprList exprs st hs
  | assign a => simpa only [visit_expr] using wr_visit_assign_expr a st hs
termination_by sizeOf node
decreasing_by all_goals (simp_wf; try injections; try subst_vars; simp_arith)

theorem wr_visitExprList (es : List Expr) (st : Collect) {s : String}
    (hs : s ∈ st.wrapped_requires) :
    s ∈ (visitExprList st es).wrapped_requires := by
  cases es with
  | nil => simpa only [visitExprList] using hs
  | cons e rest =>
    simpa only [visitExprList] using wr_visitExprList rest _ (wr_visit_expr e st hs)
termination_by sizeOf es
decreasing_by all_goals (simp_wf; try injections; try subst_vars; simp_arith)

theorem wr_visitCallee (c : Callee) (st : Collect) {s : String}
    (hs : s ∈ st.wrapped_requires) :
    s ∈ (visitCallee st c).wrapped_requires := by
  cases c with
  | cexpr e => simpa only [visitCallee] using wr_visit_expr e st hs
  | csuper => simpa only [visitCallee] using hs
termination_by sizeOf c
decreasing_by all_goals (simp_wf; try injections; try subst_vars; simp_arith)

theorem wr_visit_member_expr (node : MemberExpr) (st : Collect) {s : String}
    (hs : s ∈ st.wrapped_requires) :
    s ∈ (visit_member_expr st node).wrapped_requires := by
  rw [visit_member_expr.eq_def]
  repeat' split
  all_goals try dsimp only
  all_goals repeat' split
  all_goals first
    | exact hs
    | exact wr_visit_expr _ _ hs
    | exact wr_visit_expr _ _ (wr_visit_expr _ _ hs)
termination_by sizeOf node
decreasing_by all_goals (simp_wf; try injections; try subst_vars; simp_arith)

theorem wr_visit_call_expr (node : CallExpr) (st : Collect) {s : String}
    (hs : s ∈ st.wrapped_requires) :
    s ∈ (visit_call_expr st node).wrapped_requires := by
  rw [visit_call_expr.eq_def]
  repeat' split
  all_goals try dsimp only
  all_goals repeat' split
  all_goals try dsimp only
  all_goals repeat' split
  all_goals first
    | exact wr_visitExprList _ _ (wr_vceImport _ _ (wr_vceRequire _ _ hs))
    | exact wr_visit_expr _ _
        (mem_sinsert_of_mem
          (wr_vceEval _ _ (wr_vceImport _ _ (wr_vceRequire _ _ hs))))
    | exact wr_visit_expr _ _
        (wr_vceEval _ _ (wr_vceImport _ _ (wr_vceRequire _ _ hs)))
    | exact wr_visitExprList _ _
        (wr_visit_expr _ _
          (wr_vceEval _ _ (wr_vceImport _ _ (wr_vceRequire _ _ hs))))
termination_by sizeOf node
decreasing_by all_goals (simp_wf; try injections; try subst_vars; simp_arith)

theorem wr_visit_assign_expr (node : AssignExpr) (st : Collect) {s : String}
    (hs : s ∈ st.wrapped_requires) :
    s ∈ (visit_assign_expr st node).wrapped_requires := by
  rw [visit_assign_expr.eq_def]
  repeat' split
  all_goals try dsimp only
  all_goals repeat' split
  all_goals first
    | exact wr_visit_expr _ _ (wr_visitPatOrExpr _ _ hs)
termination_by sizeOf node
decreasing_by all_goals (simp_wf; try injections; try subst_vars; simp_arith)

theorem wr_visitPatOrExpr (p : PatOrExpr) (st : Collect) {s : String}
    (hs : s ∈ st.wrapped_requires) :
    s ∈ (visitPatOrExpr st p).wrapped_requires := by
  cases p with
  | pat pat => simpa only [visitPatOrExpr] using wr_visitPat pat st hs
  | pexpr e => simpa only [visitPatOrExpr] using wr_visit_expr e st hs
termination_by sizeOf p
decreasing_by all_goals (simp_wf; try injections; try subst_vars; simp_arith)

theorem wr_visitPat (p : Pat) (st : Collect) {s : String}
    (hs : s ∈ st.wrapped_requires) :
    s ∈ (visitPat st p).wrapped_requires := by
  cases p with
  | pid i =>
    simp only [visitPat]
    split
    · exact hs
    · exact hs
  | pobject props => simpa only [visitPat] using wr_visitPatProps props st hs
  | passign left right =>
    simpa only [visitPat] using wr_visit_expr right _ (wr_visitPat left st hs)
  | pexprP e => simpa only [visitPat] using wr_visit_expr e st hs
termination_by sizeOf p
decreasing_by all_goals (simp_wf; try injections; try subst_vars; simp_arith)

theorem wr_visitPatProps (props : List ObjectPatProp) (st : Collect)
    {s : String} (hs : s ∈ st.wrapped_requires) :
    s ∈ (visitPatProps st props).wrapped_requires := by
  cases props with
  | nil => simpa only [visitPatProps] using hs
  | cons p rest =>
    simpa only [visitPatProps] using
      wr_visitPatProps rest _ (wr_visitObjectPatProp p st hs)
termination_by sizeOf props
decreasing_by all_goals (simp_wf; try injections; try subst_vars; simp_arith)

theorem wr_visitObjectPatProp (p : ObjectPatProp) (st : Collect) {s : String}
    (hs : s ∈ st.wrapped_requires) :
    s ∈ (visitObjectPatProp st p).wrapped_requires := by
  cases p with
  | kv key value =>
    simpa only [visitObjectPatProp] using
      wr_visitPat value _ (wr_visitPropName key st hs)
  | assignP key value =>
    simp only [visitObjectPatProp]
    split
    · exact hs
    · exact hs
  | restP arg => simpa only [visitObjectPatProp] using wr_visitPat arg st hs
termination_by sizeOf p
decreasing_by all_goals (simp_wf; try injections; try subst_vars; simp_arith)

theorem wr_visitPropName (p : PropName) (st : Collect) {s : String}
    (hs : s ∈ st.wrapped_requires) :
    s ∈ (visitPropName st p).wrapped_requires := by
  cases p with
  | pnIdent i => simpa only [visitPropName] using hs
  | pnStr v => simpa only [visitPropName] using hs
  | pnComputed e => simpa only [visitPropName] using wr_visit_expr e st hs
termination_by sizeOf p
decreasing_by all_goals (simp_wf; try injections; try subst_vars; simp_arith)

end

/-! ## The claims -/

/-- C1: round-trip for exported names, as the code has it.  While
`should_wrap` is false, every value recorded in `exported_symbols` follows
the `$M$exports` / `$M$export$e0` schema for SOME exported name `e0` — but
`e0` need not be the entry's own key: the source-less `export {x as y}` remap
(hoist.rs lines 155-164) stores the canonical name of the ORIGINAL binding
under the alias, so the claimed `n = "$M$export$e"` with `e` the entry's key
does not hold (see the counterexample). -/
theorem claim_C1 (ord : List String → List String) (m : Module) (M : String)
    (decls : List IdentId) (im gm : Mark)
    (hw : (hoistOrd ord m M decls im gm).2.should_wrap = false)
    (p : String × String)
    (hp : p ∈ (hoistOrd ord m M decls im gm).2.exported_symbols) :
    p.2 = exportsName M ∨ ∃ e0, p.2 = exportName M e0 := by
  obtain ⟨h1, h2, h3, h4⟩ := SInv_hoistOrd M ord m decls im gm
  exact h4 hw p hp

/-- C1 witness: the `exports.foo = 2;` module records
`("foo", "$abc$export$foo")`, whose value follows the schema. -/
theorem claim_C1_witness :
    (("foo", "$abc$export$foo") : String × String).2 = exportsName "abc" ∨
      ∃ e0, (("foo", "$abc$export$foo") : String × String).2 =
        exportName "abc" e0 :=
  claim_C1 (fun l => l) m6 "abc" [] 2 1 (by rfl)
    ("foo", "$abc$export$foo") (by decide)

/-- C1 counterexample: after `export {x}; export {x as y};` the run (with
`should_wrap` false) records the entry `("y", "$abc$export$x")`: the fresh
name under the key `"y"` is built from `"x"`, not `"y"`, refuting
`n = "$M$export$e"` for the entry's own key `e`. -/
theorem claim_C1_cex :
    (hoist mC1 "abc" [("x", [1])] 2 1).2.should_wrap = false ∧
    ("y", "$abc$export$x") ∈ (hoist mC1 "abc" [("x", [1])] 2 1).2.exported_symbols ∧
    "$abc$export$x" ≠ exportName "abc" "y" ∧ "y" ≠ "*" :=
  ⟨by rfl, by decide, by decide, by decide⟩

/-- C2: corrected context-reset rule.  Only export identifiers have their
syntax context reset to the empty context (`get_export_ident`,
hoist.rs lines 762-774); `get_import_ident` (lines 752-760) returns an
identifier that KEEPS the span context it was given, so the claimed
"every rewritten identifier carries the empty context" fails (see the
counterexample, a whole-pass run). -/
theorem claim_C2 (st : Hoist) (c : Ctxt) (e source localName : String) :
    (st.get_export_ident c e).1.ctxt = [] ∧
    (st.get_import_ident c source localName).1.ctxt = c :=
  ⟨rfl, rfl⟩

/-- C2 counterexample: hoisting `import {foo as x} from 'other'; x;` rewrites
the statement's `x` to the `$abc$import$…` identifier but leaves its context
`[1]`, not the empty context. -/
theorem claim_C2_cex :
    (stmtIdents (hoist mC2 "abc" [("x", [1])] 2 1).1).map Ident.ctxt = [[1]] ∧
    ([1] : Ctxt) ≠ ([] : Ctxt) :=
  ⟨by decide, by decide⟩

/-- C3: determinism failure.  `export_decls` is a `std::collections::HashSet`
whose iteration order the standard library does not fix; with the same module
(`exports.a = 1; exports.b = 2;`) and identical inputs, two admissible
iteration orders (insertion order and its reverse) emit the hoisted
`var $abc$export$K;` declarations in different orders: the first item of the
output body differs, so the output is not byte-identical across runs. -/
theorem claim_C3 :
    firstDeclName (hoistOrd (fun l => l) mC3 "abc" [] 2 1).1 =
      some "$abc$export$a" ∧
    firstDeclName (hoistOrd List.reverse mC3 "abc" [] 2 1).1 =
      some "$abc$export$b" :=
  ⟨by decide, by decide⟩

/-- C4: corrected characterization of `match_require` on a call whose first
argument is the string literal `s`: the match succeeds whenever the callee is
a free, non-ignored `require` identifier, REGARDLESS of any further
arguments (the source reads `args.get(0)`, hoist.rs line 1348); the spec's
"sole argument" requirement is not checked (see the counterexample). -/
theorem claim_C4 (i : Ident) (rest : List Expr) (decls : List IdentId)
    (im : Mark) (s t : String) :
    match_require (.call (.mk (.cexpr (.ident i)) (Expr.lit (.str s) :: rest)))
        decls im = some t ↔
      (t = s ∧ i.sym = "require" ∧ i.toId ∉ decls ∧
       is_marked i.ctxt im = false) := by
  unfold match_require
  dsimp only [List.head?]
  split
  · rename_i hc
    constructor
    · intro h
      injection h with h
      exact ⟨h.symm, hc.1, hc.2.1, hc.2.2⟩
    · rintro ⟨ht, _h⟩
      rw [ht]
  · rename_i hc
    constructor
    · intro h
      exact absurd h (by simp)
    · rintro ⟨ht, h1, h2, h3⟩
      exact absurd ⟨h1, h2, h3⟩ hc

/-- C4 counterexample: `require("a", "b")` has two arguments; the
implementation still matches it (value `"a"`), while the spec's
sole-argument reading (`matchRequireSpec`) rejects it. -/
theorem claim_C4_cex :
    match_require (.call (.mk (.cexpr (.ident ⟨"require", []⟩))
      [.lit (.str "a"), .lit (.str "b")])) [] 2 = some "a" ∧
    matchRequireSpec (.call (.mk (.cexpr (.ident ⟨"require", []⟩))
      [.lit (.str "a"), .lit (.str "b")])) [] 2 = none :=
  ⟨by decide, by decide⟩

/-- C5: corrected wrapped-requires rule.  A call expression matching
`require(s)` that REACHES `visit_call_expr` does add `s` to
`wrapped_requires`; but a top-level expression statement consisting of
exactly `require(s);` never reaches it — `visit_module_item`
(hoist.rs lines 874-880) returns without visiting its children — so the
claimed "including a top-level expression statement consisting of exactly
`require(s);`" fails (see the counterexample). -/
theorem claim_C5 (node : CallExpr) (st : Collect) (s : String)
    (h : match_require (.call node) st.decls st.ignore_mark = some s) :
    s ∈ (visit_call_expr st node).wrapped_requires := by
  have hs : s ∈ (vceRequire st node).wrapped_requires := by
    unfold vceRequire
    rw [h]
    exact self_mem_sinsert s st.wrapped_requires
  rw [visit_call_expr.eq_def]
  repeat' split
  all_goals try dsimp only
  all_goals repeat' split
  all_goals try dsimp only
  all_goals repeat' split
  all_goals first
    | exact wr_visitExprList _ _ (wr_vceImport _ _ hs)
    | exact wr_visit_expr _ _
        (mem_sinsert_of_mem (wr_vceEval _ _ (wr_vceImport _ _ hs)))
    | exact wr_visit_expr _ _ (wr_vceEval _ _ (wr_vceImport _ _ hs))
    | exact wr_visitExprList _ _
        (wr_visit_expr _ _ (wr_vceEval _ _ (wr_vceImport _ _ hs)))

/-- C5 witness: visiting the call `require("b")` directly through
`visit_call_expr` records `"b"` in `wrapped_requires`. -/
theorem claim_C5_witness :
    "b" ∈ (visit_call_expr (Collect.new [] 2)
      (.mk (.cexpr (.ident ⟨"require", []⟩))
        [.lit (.str "b")])).wrapped_requires :=
  claim_C5 (.mk (.cexpr (.ident ⟨"require", []⟩)) [.lit (.str "b")])
    (Collect.new [] 2) "b" (by decide)

/-- C5 counterexample: the module whose whole body is the top-level
statement `require('x');` matches `require(s)`, yet the Collect pass leaves
`wrapped_requires` empty — the statement is skipped by `visit_module_item`. -/
theorem claim_C5_cex :
    Collect.matchRequire (Collect.new [] 2)
        (.call (.mk (.cexpr (.ident ⟨"require", [1]⟩)) [.lit (.str "x")])) =
      some "x" ∧
    (collectModule mC5 [] 2).wrapped_requires = [] :=
  ⟨by decide, by rfl⟩

/-- C6: the module `exports.foo = 2;` with module id "abc" yields
`static_cjs_exports = true`, `has_cjs_exports = true`, `should_wrap = false`,
and its output hoists `var $abc$export$foo;` in front of the assignment
rewritten to bind `$abc$export$foo`. -/
theorem claim_C6 :
    (hoist m6 "abc" [] 2 1).2.static_cjs_exports = true ∧
    (hoist m6 "abc" [] 2 1).2.has_cjs_exports = true ∧
    (hoist m6 "abc" [] 2 1).2.should_wrap = false ∧
    (hoist m6 "abc" [] 2 1).1 = ⟨[
      .mstmt (.sdecl ⟨.varK, [⟨.pid ⟨"$abc$export$foo", []⟩, none⟩]⟩),
      .mstmt (.sexpr (.assign (.mk (.pat (.pid ⟨"$abc$export$foo", []⟩))
        (.lit (.num 2)))))]⟩ :=
  ⟨by rfl, by rfl, by rfl, by rfl⟩

/-- C7: dynamic-import consistency.  In every run, every entry `(k, s)` of
the `dynamic_imports` table satisfies `k = "$" ++ M ++ "$importAsync$" ++`
the hexadecimal 64-bit hash of `s` — that is, `k = asyncName M s`, so the
key determines the recorded source and vice versa. -/
theorem claim_C7 (ord : List String → List String) (m : Module) (M : String)
    (decls : List IdentId) (im gm : Mark) (p : String × String)
    (hp : p ∈ (hoistOrd ord m M decls im gm).2.dynamic_imports) :
    p.1 = asyncName M p.2 := by
  obtain ⟨h1, h2, h3, h4⟩ := SInv_hoistOrd M ord m decls im gm
  exact h2 p hp

/-- C7 witness: the run on `import('other');` records the entry
`("$abc$importAsync$6de0b259bc2f2db0", "other")`, and its key is
`asyncName "abc" "other"`. -/
theorem claim_C7_witness :
    (("$abc$importAsync$6de0b259bc2f2db0", "other") : String × String).1 =
      asyncName "abc" (("$abc$importAsync$6de0b259bc2f2db0", "other") : String × String).2 :=
  claim_C7 (fun l => l) m7 "abc" [] 2 1
    ("$abc$importAsync$6de0b259bc2f2db0", "other") (by decide)

/-- C8: corrected ignore-mark rule.  The matchers respect the mark: a call
whose callee identifier carries `ignore_mark` is matched neither by
`match_require` nor by `match_import`.  But the `typeof require` rewrite of
`fold_expr` (hoist.rs lines 483-500) checks only the symbol and `decls`, not
the mark, so "no require/import-specific rewrite fires" fails for an
ignore-marked `require` under `typeof` (see the counterexample). -/
theorem claim_C8 (i : Ident) (args : List Expr) (decls : List IdentId)
    (im : Mark) (h : is_marked i.ctxt im = true) :
    match_require (.call (.mk (.cexpr (.ident i)) args)) decls im = none ∧
    match_import (.call (.mk (.cexpr (.ident i)) args)) im = none := by
  constructor
  · simp [match_require, h]
  · simp [match_import, h]

/-- C8 witness: with `ignore_mark = 2`, the marked call
`require("a")` (context `[2]`) matches neither matcher. -/
theorem claim_C8_witness :
    match_require (.call (.mk (.cexpr (.ident ⟨"require", [2]⟩))
      [.lit (.str "a")])) [] 2 = none ∧
    match_import (.call (.mk (.cexpr (.ident ⟨"require", [2]⟩))
      [.lit (.str "a")])) 2 = none :=
  claim_C8 ⟨"require", [2]⟩ [.lit (.str "a")] [] 2 (by decide)

/-- C8 counterexample: the identifier `require` with context `[2]` carries
the ignore mark `2`, yet `fold_expr` still replaces `typeof require` by the
string literal `"function"`. -/
theorem claim_C8_cex :
    is_marked ([2] : Ctxt) 2 = true ∧
    (fold_expr (Hoist.new "abc" (Collect.new [] 2) 1)
      (.unary .typeofOp (.ident ⟨"require", [2]⟩))).1 =
      .lit (.str "function") :=
  ⟨by decide, by rfl⟩

/-- C9: corrected `imported_symbols` schema.  Every entry satisfies
`impEntryOK`: a non-`"*"` local maps to `$M$import$H(s)$H(l)` or
`$M$importAsync$H(s)$H(l)`, and a `"*"` local maps to `$M$import$H(s)`,
`$M$importAsync$H(s)` — or to `$M$importAsync$H(s)$H("*")`: the async
member-access rule (hoist.rs lines 406-417) hashes the accessed property
even when that property is literally named `*`, so the claimed keyless form
for `local = "*"` fails (see the counterexample). -/
theorem claim_C9 (ord : List String → List String) (m : Module) (M : String)
    (decls : List IdentId) (im gm : Mark) (p : String × String × String)
    (hp : p ∈ (hoistOrd ord m M decls im gm).2.imported_symbols) :
    impEntryOK M p := by
  obtain ⟨h1, h2, h3, h4⟩ := SInv_hoistOrd M ord m decls im gm
  exact h3 p hp

/-- C9 witness: the run on `let x = await import('other'); x["*"];` records
`("$abc$importAsync$6de0b259bc2f2db0$2a", "other", "*")`, which satisfies
the corrected schema. -/
theorem claim_C9_witness :
    impEntryOK "abc" ("$abc$importAsync$6de0b259bc2f2db0$2a", "other", "*") :=
  claim_C9 (fun l => l) m9 "abc" [("x", [1])] 2 1
    ("$abc$importAsync$6de0b259bc2f2db0$2a", "other", "*") (by decide)

/-- C9 counterexample: that same entry has `local = "*"` but its fresh name
ends in `$2a` (the hash of `"*"`): it is neither `asyncName "abc" "other"`
nor `importName "abc" "other"`, refuting the claimed keyless form. -/
theorem claim_C9_cex :
    ("$abc$importAsync$6de0b259bc2f2db0$2a", "other", "*")
      ∈ (hoist m9 "abc" [("x", [1])] 2 1).2.imported_symbols ∧
    "$abc$importAsync$6de0b259bc2f2db0$2a" ≠ asyncName "abc" "other" ∧
    "$abc$importAsync$6de0b259bc2f2db0$2a" ≠ importName "abc" "other" :=
  ⟨by decide, by decide, by decide⟩

/-- C10: corrected `global` rule.  When the identifier's id is found in
neither of Collect's `imports` and `exports` tables, a free `global` is
rewritten to `$parcel$global` whatever `should_wrap` and the function scope
are; but the two table lookups come FIRST in `fold_ident`
(hoist.rs lines 534-567), so "unconditionally" fails: an exported `global`
binding is rewritten to its export identifier instead (see the
counterexample). -/
theorem claim_C10 (st : Hoist) (i : Ident)
    (h1 : alookup st.collect.imports i.toId = none)
    (h2 : alookup st.collect.exports i.toId = none)
    (h3 : i.sym = "global") (h4 : i.toId ∉ st.collect.decls) :
    (fold_ident st i).1 = ⟨"$parcel$global", i.ctxt⟩ := by
  unfold fold_ident
  rw [h1]
  dsimp only
  unfold foldIdentRest
  rw [h2]
  dsimp only
  have hne : ¬(i.sym = "exports" ∧ i.toId ∉ st.collect.decls ∧
      st.collect.should_wrap = false) := by
    simp [h3]
  rw [if_neg hne, if_pos ⟨h3, h4⟩]

/-- C10 witness: with `should_wrap` SET and the tables empty, a free
`global` (context `[1]`) still becomes `$parcel$global` — keeping its
span context. -/
theorem claim_C10_witness :
    (fold_ident
      (Hoist.new "abc" { Collect.new [] 2 with should_wrap := true } 1)
      ⟨"global", [1]⟩).1 = ⟨"$parcel$global", [1]⟩ :=
  claim_C10
    (Hoist.new "abc" { Collect.new [] 2 with should_wrap := true } 1)
    ⟨"global", [1]⟩ (by rfl) (by rfl) rfl (by decide)

/-- C10 counterexample: in `export {global}; global;` the identifier
`global` is free (not in `decls`), yet the pass rewrites the statement to
`$abc$export$global;`, not `$parcel$global;` — the exports lookup
intercepts the rename. -/
theorem claim_C10_cex :
    (stmtIdents (hoist mC10 "abc" [] 2 1).1).map Ident.sym =
      ["$abc$export$global"] ∧
    "$abc$export$global" ≠ "$parcel$global" :=
  ⟨by decide, by decide⟩

end Hoisting
